import Mathlib

/-!
# Assessment scoring workflow of `src/actions/interview.js`

A shallow embedding of the server actions `generateAssessment`,
`submitAssessmentAnswers`, `getAssessments`, `getAssessment` and
`deleteAssessment`, followed by theorems about the score, the per-question
breakdown, the owner-scoped store, the retry policy of the generation call and
the messages the actions surface on failure.

JavaScript numbers are IEEE-754 binary64 values.  The scorer only ever forms
non-negative numbers, so a number is modelled here as `NaN`, `+Infinity` or a
finite non-negative dyadic `man * 2^exp`, and every arithmetic operation rounds
its exact result to the nearest binary64 value, ties to even, exactly as the
language prescribes.
-/

namespace SensAi

/-! ## JavaScript numbers -/

/-- Number of binary digits of `n`; `fuel` bounds the recursion and `n` itself is
always enough. -/
def bitLength : Nat → Nat → Nat
  | 0, _ => 0
  | fuel + 1, n => if n = 0 then 0 else bitLength fuel (n / 2) + 1

/-- Position of the leading binary digit of a positive `n`, that is `⌊log₂ n⌋`. -/
def log2Floor (n : Nat) : Nat := bitLength n n - 1

/-- The integer `e` with `2^e ≤ a / b < 2^(e+1)`, for positive `a` and `b`. -/
def floorLog2 (a b : Nat) : Int :=
  let d : Int := (log2Floor a : Int) - (log2Floor b : Int)
  if b * 2 ^ log2Floor a ≤ a * 2 ^ log2Floor b then d else d - 1

/-- Round the non-negative rational `a / b` to the nearest integer, ties to the
even neighbour. -/
def roundHalfEven (a b : Nat) : Nat :=
  let q := a / b
  let r := a % b
  if 2 * r < b then q
  else if b < 2 * r then q + 1
  else if q % 2 = 0 then q else q + 1

/-- A JavaScript number of the non-negative range: `NaN`, `+Infinity`, or the
finite value `man * 2^exp`. -/
inductive JsNumber
  | nan
  | inf
  | fin (man : Nat) (exp : Int)
  deriving DecidableEq

/-- The binary64 value nearest to the exact rational `a / b` (`b > 0`), ties to
even: 53 significant bits, the last one of weight `2^(e-52)` where
`2^e ≤ a / b < 2^(e+1)`.  The exponent range is not bounded here: array lengths
are below `2^32`, so every quotient the scorer forms is `0` or lies between
`2^-32` and `100`, far from the subnormal and overflow ranges. -/
def roundToDouble (a b : Nat) : JsNumber :=
  if a = 0 then .fin 0 0
  else
    let s : Int := 52 - floorLog2 a b
    .fin (roundHalfEven (a * 2 ^ s.toNat) (b * 2 ^ (-s).toNat)) (-s)

/-- The number denoting a count or an array length (exact below `2^53`). -/
def JsNumber.ofNat (n : Nat) : JsNumber := .fin n 0

/-- The operator `/` on numbers. -/
def jsDiv : JsNumber → JsNumber → JsNumber
  | .fin m e, .fin n f =>
      if n = 0 then (if m = 0 then .nan else .inf)
      else roundToDouble (m * 2 ^ (e - f).toNat) (n * 2 ^ (f - e).toNat)
  | .inf, .fin _ _ => .inf
  | .fin _ _, .inf => .fin 0 0
  | _, _ => .nan

/-- The operator `*` on numbers. -/
def jsMul : JsNumber → JsNumber → JsNumber
  | .fin m e, .fin n f =>
      roundToDouble (m * n * 2 ^ (e + f).toNat) (2 ^ (-(e + f)).toNat)
  | .inf, .fin n _ => if n = 0 then .nan else .inf
  | .fin m _, .inf => if m = 0 then .nan else .inf
  | .inf, .inf => .inf
  | _, _ => .nan

/-- The function `Math.round`: the integer nearest to `x`, ties towards
`+Infinity`, that is `⌊x + 1/2⌋`; `NaN` and `Infinity` are returned unchanged. -/
def mathRound : JsNumber → JsNumber
  | .fin m e => .fin ((2 * m * 2 ^ e.toNat + 2 ^ (-e).toNat) / (2 * 2 ^ (-e).toNat)) 0
  | x => x

/-- Round-half-up of the exact rational `a / b`, that is `⌊a / b + 1/2⌋`. -/
def roundHalfUp (a b : Nat) : Nat := (2 * a + b) / (2 * b)

/-! ## JavaScript values -/

/-- The values an answer entry or a question field can hold.  `num` carries an
integer-valued number; `obj` stands for any object or array, which is truthy
and, coming from a different source, never strictly equal to another value. -/
inductive JsVal
  | undefined
  | null
  | bool (b : Bool)
  | num (n : Int)
  | str (s : String)
  | obj
  deriving DecidableEq

/-- Truthiness, as tested by `&&`, `!` and `if`. -/
def JsVal.toBoolean : JsVal → Bool
  | .undefined => false
  | .null => false
  | .bool b => b
  | .num n => n != 0
  | .str s => s != ""
  | .obj => true

/-- The operator `===`. -/
def strictEq : JsVal → JsVal → Bool
  | .obj, _ => false
  | _, .obj => false
  | a, b => decide (a = b)

/-- The element `xs[i]` of an array: `undefined` past the end. -/
def jsIndex (xs : List JsVal) (i : Nat) : JsVal := xs.getD i .undefined

/-- The UTF-16 code unit `s.charCodeAt(0)`; `none` is the `NaN` of an empty string. -/
def charCodeAt0 (s : String) : Option Nat :=
  match s.data with
  | [] => none
  | c :: _ =>
      some (if c.val.toNat < 0x10000 then c.val.toNat
            else 0xD800 + (c.val.toNat - 0x10000) / 0x400)

/-! ## Data model -/

/-- One non-null element of `assessment.questions`, read through the four members
the scorer accesses; a member the element does not have is `undefined`, so an
element that is not an object at all is the question with every member
`undefined`.  `options` is `none` when the member is absent or falsy and `some xs`
when it is an array, the shape the generation prompt prescribes. -/
structure Question where
  question : JsVal
  options : Option (List JsVal)
  correctAnswer : JsVal
  explanation : JsVal
  deriving DecidableEq

/-- Modelled from the spec: the schema of the Assessment table is not among the
sources; the data model of the specification gives the record its identifier,
its owner, a category, the ordered sequence of questions, the score and the two
timestamps set by the persistence layer.  An element of `questions` is `none`
when the stored array holds `null` at that position. -/
structure Assessment where
  id : String
  userId : String
  quizScore : JsNumber
  category : String
  questions : List (Option Question)
  createdAt : Nat
  updatedAt : Nat
  deriving DecidableEq

/-- The user record returned by the identity check; the workflow scopes every
query by its `id`. -/
structure User where
  id : String
  deriving DecidableEq

/-- The pair returned by `checkAuth`. -/
structure AuthResult where
  user : Option User
  userId : Option String
  deriving DecidableEq

/-- The guard `if (!userId || !user)`: the user record when both are truthy. -/
def authenticated (auth : AuthResult) : Option User :=
  match auth.userId, auth.user with
  | some uid, some user => if uid = "" then none else some user
  | _, _ => none

/-! ## Scorer -/

/-- The test of the scoring loop,
`question && userAnswer && question.correctAnswer === userAnswer`. -/
def countsAsCorrect (question : Option Question) (userAnswer : JsVal) : Bool :=
  match question with
  | none => false
  | some q => userAnswer.toBoolean && strictEq q.correctAnswer userAnswer

/-- The loop `for (let i = 0; i < totalQuestions; i++)` that counts
`correctAnswers`. -/
def countCorrect (questions : List (Option Question)) (answers : List JsVal) : Nat :=
  (List.range questions.length).foldl
    (fun correctAnswers i =>
      if countsAsCorrect (questions.getD i none) (jsIndex answers i) then correctAnswers + 1
      else correctAnswers)
    0

/-- The expression `Math.round((correctAnswers / totalQuestions) * 100)`. -/
def percentage (correctAnswers totalQuestions : Nat) : JsNumber :=
  mathRound (jsMul (jsDiv (.ofNat correctAnswers) (.ofNat totalQuestions)) (.ofNat 100))

/-- The `quizScore` computed by `submitAssessmentAnswers` from the persisted
questions and the submitted answers. -/
def computeQuizScore (questions : List (Option Question)) (answers : List JsVal) : JsNumber :=
  percentage (countCorrect questions answers) questions.length

/-! ## Breakdown -/

/-- The flag `isCorrect = userAnswer === question.correctAnswer` of the breakdown. -/
def isCorrect (question : Question) (userAnswer : JsVal) : Bool :=
  strictEq userAnswer question.correctAnswer

/-- The letter-to-index conversion `correctAnswer.charCodeAt(0) - 65`; `none` is `NaN`. -/
def answerIndex (correctAnswer : String) : Option Int :=
  (charCodeAt0 correctAnswer).map (fun code => (code : Int) - 65)

/-- The value of `correctAnswerText` for one question; `none` when the
evaluation throws (`charCodeAt` called on a truthy value that is not a string). -/
def correctAnswerText (question : Question) : Option JsVal :=
  match question.options with
  | none => some question.correctAnswer
  | some options =>
      if question.correctAnswer.toBoolean then
        match question.correctAnswer with
        | .str s =>
            match answerIndex s with
            | some k =>
                if 0 ≤ k ∧ k < options.length then some (jsIndex options k.toNat)
                else some question.correctAnswer
            | none => some question.correctAnswer
        | _ => none
      else some question.correctAnswer

/-- One element of the `questions` array of the returned result. -/
structure BreakdownEntry where
  question : JsVal
  userAnswer : JsVal
  correctAnswerText : JsVal
  isCorrect : Bool
  explanation : JsVal
  deriving DecidableEq

/-- The callback of `assessment.questions.map`; `none` when it throws (a `null`
element, or a throwing `correctAnswerText`). -/
def breakdownEntry (question : Option Question) (userAnswer : JsVal) : Option BreakdownEntry :=
  match question with
  | none => none
  | some q =>
      match correctAnswerText q with
      | none => none
      | some text =>
          some { question := q.question, userAnswer := userAnswer, correctAnswerText := text,
                 isCorrect := isCorrect q userAnswer, explanation := q.explanation }

/-- The call `assessment.questions.map((question, index) => ...)`. -/
def breakdown (questions : List (Option Question)) (answers : List JsVal) :
    Option (List BreakdownEntry) :=
  (List.range questions.length).mapM
    (fun index => breakdownEntry (questions.getD index none) (jsIndex answers index))

/-! ## Store

The persistent store holds the Assessment records; identifiers and timestamps
are chosen by the store and enter the model as parameters.  A store operation
fails only when the addressed record is missing, and the store persists the
number it is handed. -/

/-- The state of the assessment table. -/
abbrev Store := List Assessment

/-- The filter `where: { id, userId }` shared by every query of the workflow. -/
def ownedBy (id userId : String) (a : Assessment) : Bool :=
  a.id = id && a.userId = userId

/-- The query `db.assessment.findUnique({ where: { id, userId } })`. -/
def findUnique (db : Store) (id userId : String) : Option Assessment :=
  db.find? (ownedBy id userId)

/-- The record written by `db.assessment.update` with `data: { quizScore }`. -/
def withScore (quizScore : JsNumber) (now : Nat) (a : Assessment) : Assessment :=
  { a with quizScore := quizScore, updatedAt := now }

/-- The call `db.assessment.update({ where: { id, userId }, data: { quizScore } })`:
the updated record and the new state, or `none` when no record matches. -/
def dbUpdate (db : Store) (id userId : String) (quizScore : JsNumber) (now : Nat) :
    Option (Assessment × Store) :=
  match findUnique db id userId with
  | none => none
  | some a =>
      some (withScore quizScore now a,
            db.map (fun x => if ownedBy id userId x then withScore quizScore now x else x))

/-- The call `db.assessment.delete({ where: { id, userId } })`: the deleted record
and the new state, or `none` when no record matches. -/
def dbDelete (db : Store) (id userId : String) : Option (Assessment × Store) :=
  match findUnique db id userId with
  | none => none
  | some a => some (a, db.filter (fun x => !ownedBy id userId x))

/-- The call `db.assessment.create` of `generateAssessment`: the record is created
with `quizScore: 0`, the caller as owner, the topic as category and the parsed
questions; `newId` and `now` are the identifier and timestamp the store assigns. -/
def createAssessment (db : Store) (newId : String) (now : Nat) (user : User) (topic : String)
    (questions : List (Option Question)) : Assessment × Store :=
  let assessment : Assessment :=
    { id := newId, userId := user.id, quizScore := JsNumber.ofNat 0, category := topic,
      questions := questions, createdAt := now, updatedAt := now }
  (assessment, db ++ [assessment])

/-! ## Server actions

A server action either returns a value or throws an `Error`; the outcome is an
`Except` whose error is the message the caller sees. -/

deriving instance DecidableEq for Except

/-- The object returned by `submitAssessmentAnswers`. -/
structure SubmitResult where
  id : String
  quizScore : JsNumber
  category : String
  createdAt : Nat
  updatedAt : Nat
  questions : List BreakdownEntry
  improvementTip : String
  deriving DecidableEq

/-- The server action `getAssessment(id)`: `null` for an unauthenticated caller and
for an id that is missing or owned by someone else. -/
def getAssessment (auth : AuthResult) (db : Store) (id : String) :
    Except String (Option Assessment) :=
  match authenticated auth with
  | none => .ok none
  | some user => .ok (findUnique db id user.id)

/-- The first part of `submitAssessmentAnswers`, up to the line that computes
`quizScore`: identity check, owner-scoped lookup, count and percentage.  A failure
is the error surfaced to the caller (a throw inside the `try` block is replaced by
the message of the `catch` block); on success the score is the value that is
handed to `db.assessment.update`. -/
def scoreSubmission (auth : AuthResult) (db : Store) (assessmentId : String)
    (answers : List JsVal) : Except String (User × Assessment × JsNumber) :=
  match authenticated auth with
  | none => .error "Authentication required"
  | some user =>
      match findUnique db assessmentId user.id with
      | none => .error "Failed to submit assessment answers"
      | some assessment => .ok (user, assessment, computeQuizScore assessment.questions answers)

/-- The server action `submitAssessmentAnswers(assessmentId, answers)` as a
function of the identity check result, the store state and the time of the
update: the outcome and the new store state. -/
def submitAssessmentAnswers (auth : AuthResult) (db : Store) (now : Nat)
    (assessmentId : String) (answers : List JsVal) : Except String SubmitResult × Store :=
  match scoreSubmission auth db assessmentId answers with
  | .error e => (.error e, db)
  | .ok (user, assessment, quizScore) =>
      match dbUpdate db assessmentId user.id quizScore now with
      | none => (.error "Failed to submit assessment answers", db)
      | some (updatedAssessment, db1) =>
          match breakdown assessment.questions answers with
          | none => (.error "Failed to submit assessment answers", db1)
          | some entries =>
              (.ok { id := updatedAssessment.id,
                     quizScore := updatedAssessment.quizScore,
                     category := updatedAssessment.category,
                     createdAt := updatedAssessment.createdAt,
                     updatedAt := updatedAssessment.updatedAt,
                     questions := entries,
                     improvementTip :=
                       "Review the questions you answered incorrectly and study the explanations provided." },
               db1)

/-- The server action `deleteAssessment(id)`.  The error thrown for a missing
record is a plain `Error` without a `code`, so the `catch` block replaces it by
the generic message. -/
def deleteAssessment (auth : AuthResult) (db : Store) (id : String) :
    Except String Assessment × Store :=
  match authenticated auth with
  | none => (.error "Authentication required", db)
  | some user =>
      match findUnique db id user.id with
      | none => (.error "Failed to delete assessment", db)
      | some _ =>
          match dbDelete db id user.id with
          | none =>
              (.error "Assessment not found or you don\x27t have permission to delete it", db)
          | some (deletedAssessment, db1) => (.ok deletedAssessment, db1)

/-- One store transition of the workflow: the create of a successful
`generateAssessment` (the store assigns an identifier not yet in use), or the
effect of a submit or delete call (which may be no change at all). -/
inductive Step : Store → Store → Prop
  | generate (db : Store) (newId : String) (now : Nat) (user : User) (topic : String)
      (questions : List (Option Question)) (fresh : ∀ a ∈ db, a.id ≠ newId) :
      Step db (createAssessment db newId now user topic questions).2
  | submit (auth : AuthResult) (db : Store) (now : Nat) (assessmentId : String)
      (answers : List JsVal) :
      Step db (submitAssessmentAnswers auth db now assessmentId answers).2
  | delete (auth : AuthResult) (db : Store) (id : String) :
      Step db (deleteAssessment auth db id).2

/-- The store states reachable from the empty table. -/
inductive Reachable : Store → Prop
  | empty : Reachable []
  | step {db db1 : Store} : Reachable db → Step db db1 → Reachable db1

/-- Identifiers are unique in the store (`id` is the primary key). -/
def uniqueIds (db : Store) : Prop := (db.map (fun a => a.id)).Nodup

/-- The indices `i < questions.length` at which the submitted answer is present,
non-empty and strictly equal to the stored `correctAnswer`: the indices that the
specification counts as correct. -/
def countedIndices (questions : List (Option Question)) (answers : List JsVal) : List Nat :=
  (List.range questions.length).filter
    (fun i => countsAsCorrect (questions.getD i none) (jsIndex answers i))

/-- A well-formed four-option question whose correct answer is the second option. -/
def sampleQuestion : Question :=
  { question := .str "Capital of the United Kingdom?",
    options := some [.str "Paris", .str "London", .str "Berlin", .str "Madrid"],
    correctAnswer := .str "B",
    explanation := .str "London is the capital." }

/-- The range property of a stored score: an assessment with a non-empty question
list carries an integer score between 0 and 100. -/
def scoreInRange (a : Assessment) : Prop :=
  a.questions ≠ [] → ∃ n : Nat, n ≤ 100 ∧ a.quizScore = .fin n 0

/-- A signed-in caller owning the sample assessments. -/
def sampleOwner : AuthResult := { user := some { id := "user-a" }, userId := some "clerk-a" }

/-- Another signed-in caller. -/
def sampleStranger : AuthResult := { user := some { id := "user-b" }, userId := some "clerk-b" }

/-- The store after one generated assessment of three questions. -/
def sampleStore : Store :=
  (createAssessment [] "assessment-1" 1 { id := "user-a" } "geography"
    [some sampleQuestion, some sampleQuestion, some sampleQuestion]).2

/-- The store after the owner submitted one right and one wrong answer. -/
def sampleStoreScored : Store :=
  (submitAssessmentAnswers sampleOwner sampleStore 2 "assessment-1" [.str "B", .str "A"]).2

/-- The record of `sampleStoreScored`: one answer of three was right. -/
def sampleScoredAssessment : Assessment :=
  { id := "assessment-1", userId := "user-a", quizScore := .fin 33 0, category := "geography",
    questions := [some sampleQuestion, some sampleQuestion, some sampleQuestion],
    createdAt := 1, updatedAt := 2 }

/-- A stored assessment whose question list is empty. -/
def emptyAssessment : Assessment :=
  { id := "assessment-0", userId := "user-a", quizScore := .fin 0 0, category := "geography",
    questions := [], createdAt := 1, updatedAt := 1 }

/-! ## Generation workflow

The server action `generateAssessment` calls the text-generation service in a
bounded retry loop, cleans and parses the generated text and persists the
assessment.  The generation service, `JSON.parse` and the store are
collaborators: their behaviour during one request enters the model as parameters. -/

/-- A value thrown by a collaborator, read through the two members the handlers
inspect.  `message` is `none` when the thrown value carries no string message. -/
structure JsError where
  status : JsVal
  message : Option String
  deriving DecidableEq

/-- The outcome of one call `model.generateContent(prompt)`: the generated text, or
the thrown error. -/
inductive ServiceOutcome
  | success (text : String)
  | failure (error : JsError)
  deriving DecidableEq

/-- The constant `maxAttempts`. -/
def maxAttempts : Nat := 3

/-- What the retry loop leaves behind: the error it rethrew or the text of `result`
(`none` when `result` is still undefined), the number of calls made to the
generation service and the delays, in milliseconds, of the timers it awaited. -/
structure RetryOutcome where
  result : Except JsError (Option String)
  calls : Nat
  waits : List Nat
  deriving DecidableEq

/-- The loop `while (attempts < maxAttempts)` of `generateAssessment`, from the
state `attempts`; `service k` is the outcome of the call number `k` (from 0) of this
request, `calls` counts the calls made so far. -/
def retryLoop (service : Nat → ServiceOutcome) (attempts calls : Nat) (waits : List Nat) :
    RetryOutcome :=
  if attempts < maxAttempts then
    match service calls with
    | .success text => { result := .ok (some text), calls := calls + 1, waits := waits }
    | .failure error =>
        if strictEq error.status (.num 503) && decide (attempts + 1 < maxAttempts) then
          retryLoop service (attempts + 1) (calls + 1) (waits ++ [2000 * (attempts + 1)])
        else { result := .error error, calls := calls + 1, waits := waits }
  else { result := .ok none, calls := calls, waits := waits }
termination_by maxAttempts - attempts
decreasing_by
  simp only [maxAttempts] at *
  omega

/-- Whether the characters of `pattern` stand at the head of the text. -/
def startsWith : List Char → List Char → Bool
  | [], _ => true
  | _ :: _, [] => false
  | p :: ps, c :: cs => p = c && startsWith ps cs

/-- Whether `pattern` occurs somewhere in the text. -/
def includesFrom (pattern : List Char) : List Char → Bool
  | [] => pattern.isEmpty
  | c :: cs => startsWith pattern (c :: cs) || includesFrom pattern cs

/-- The method `s.includes(pattern)`. -/
def jsIncludes (s pattern : String) : Bool := includesFrom pattern.data s.data

/-- Removal of every match of a literal pattern, scanning from the left; `skip` is
the number of characters of the current match that remain to be dropped. -/
def removeAllFrom (pattern : List Char) : Nat → List Char → List Char
  | _, [] => []
  | skip + 1, _ :: cs => removeAllFrom pattern skip cs
  | 0, c :: cs =>
      if startsWith pattern (c :: cs) then removeAllFrom pattern (pattern.length - 1) cs
      else c :: removeAllFrom pattern 0 cs

/-- The call `s.replace(/pattern/g, "")` for a literal, non-empty pattern. -/
def removeAll (s pattern : String) : String := ⟨removeAllFrom pattern.data 0 s.data⟩

/-- The white space and line terminator characters that `trim` removes. -/
def isJsWhitespace (c : Char) : Bool :=
  [0x09, 0x0A, 0x0B, 0x0C, 0x0D, 0x20, 0xA0, 0x1680, 0x2028, 0x2029, 0x202F, 0x205F, 0x3000,
    0xFEFF].contains c.val.toNat
  || (0x2000 ≤ c.val.toNat && c.val.toNat ≤ 0x200A)

/-- The method `s.trim()`. -/
def jsTrim (s : String) : String :=
  ⟨((s.data.dropWhile isJsWhitespace).reverse.dropWhile isJsWhitespace).reverse⟩

/-- The expression that defines `cleanedContent`:
`assessmentContent.replace(/```json/g, "").replace(/```/g, "").trim()`. -/
def cleanedContent (assessmentContent : String) : String :=
  jsTrim (removeAll (removeAll assessmentContent "```json") "```")

/-- What `JSON.parse` returned, read through the only member the workflow accesses:
the document `null`, on which reading `questions` throws, or any other document
with its `questions` member, which is `none` when the member is absent or is not
an array. -/
inductive ParsedContent
  | null
  | document (questions : Option (List (Option Question)))
  deriving DecidableEq

/-- The `data` argument of `db.assessment.create`. -/
structure CreateData where
  userId : String
  quizScore : JsNumber
  category : String
  questions : Option (List (Option Question))
  deriving DecidableEq

/-- The error thrown by the inner handler when `JSON.parse` fails. -/
def parseFailure : JsError :=
  { status := .undefined, message := some "Failed to parse assessment content" }

/-- The `TypeError` of reading a member of `null` or `undefined`. -/
def cannotRead (value member : String) : JsError :=
  { status := .undefined,
    message := some ("Cannot read properties of " ++ value ++ " (reading \x27" ++ member ++ "\x27)") }

/-- The statements after the retry loop: trim and clean the generated text, parse
it, and persist the assessment.  `parse` is `JSON.parse` (`none` when it throws) and
`create` is the call `db.assessment.create` on the current store state. -/
def parseAndPersist (user : User) (parse : String → Option ParsedContent)
    (create : Store → CreateData → Except JsError (Assessment × Store)) (db : Store)
    (topic : String) (text : String) : Except JsError Assessment × Store :=
  match parse (cleanedContent (jsTrim text)) with
  | none => (.error parseFailure, db)
  | some .null => (.error (cannotRead "null" "questions"), db)
  | some (.document questions) =>
      match create db { userId := user.id, quizScore := JsNumber.ofNat 0, category := topic,
                        questions := questions } with
      | .error error => (.error error, db)
      | .ok (assessment, db1) => (.ok assessment, db1)

/-- The handler of the outer `try`: the message of the error it throws for a caught
error.  When the caught error has no string message, `error.message.includes`
throws a `TypeError`, which is what the caller then receives. -/
def surfacedMessage (error : JsError) : String :=
  if strictEq error.status (.num 503) then
    "The AI service is currently overloaded. Please try again in a few moments."
  else
    match error.message with
    | none => "Cannot read properties of undefined (reading \x27includes\x27)"
    | some message =>
        if jsIncludes message "API_KEY" then
          "AI service configuration error. Please contact support."
        else if jsIncludes message "parse" then
          "Failed to process AI response. Please try again."
        else "Failed to generate assessment. Please try again."

/-- The observable outcome of one `generateAssessment` call: what the caller
receives, the store state afterwards, the number of calls made to the generation
service and the timer delays awaited. -/
structure GenerateOutcome where
  result : Except String Assessment
  db : Store
  calls : Nat
  waits : List Nat
  deriving DecidableEq

/-- The body of the outer `try` block of `generateAssessment`: the retry loop, then
parse and persist; an error here is the value the outer handler catches. -/
def generateTry (user : User) (service : Nat → ServiceOutcome)
    (parse : String → Option ParsedContent)
    (create : Store → CreateData → Except JsError (Assessment × Store)) (db : Store)
    (topic : String) : Except JsError Assessment × Store :=
  match (retryLoop service 0 0 []).result with
  | .error error => (.error error, db)
  | .ok none => (.error (cannotRead "undefined" "response"), db)
  | .ok (some text) => parseAndPersist user parse create db topic text

/-- The server action `generateAssessment({ topic, difficulty, questionCount })`.
The difficulty and the question count only enter the prompt, which only reaches
the generation service, whose outcomes are given by `service`. -/
def generateAssessment (auth : AuthResult) (service : Nat → ServiceOutcome)
    (parse : String → Option ParsedContent)
    (create : Store → CreateData → Except JsError (Assessment × Store)) (db : Store)
    (topic : String) : GenerateOutcome :=
  match authenticated auth with
  | none => { result := .error "Authentication required", db := db, calls := 0, waits := [] }
  | some user =>
      match generateTry user service parse create db topic with
      | (.error error, db1) =>
          { result := .error (surfacedMessage error), db := db1,
            calls := (retryLoop service 0 0 []).calls, waits := (retryLoop service 0 0 []).waits }
      | (.ok assessment, db1) =>
          { result := .ok assessment, db := db1,
            calls := (retryLoop service 0 0 []).calls, waits := (retryLoop service 0 0 []).waits }

/-- The server action `getAssessments()`: the caller's assessments, most recently
created first (records created at the same instant keep their store order); the
empty list for an unauthenticated caller. -/
def getAssessments (auth : AuthResult) (db : Store) : Except String (List Assessment) :=
  match authenticated auth with
  | none => .ok []
  | some user =>
      .ok ((db.filter (fun a => a.userId = user.id)).insertionSort
        (fun a b => b.createdAt ≤ a.createdAt))

/-- Modelled from the spec: the schema of the Assessment table is not among the
sources.  A store that accepts the record, assigning it the identifier `newId` and
the timestamp `now`; the data model gives `questions` as an ordered sequence, so a
value that is not a sequence is refused with a validation error. -/
def storeCreate (newId : String) (now : Nat) (db : Store) (data : CreateData) :
    Except JsError (Assessment × Store) :=
  match data.questions with
  | none => .error { status := .undefined, message := some "Invalid value for argument questions" }
  | some questions =>
      .ok ({ id := newId, userId := data.userId, quizScore := data.quizScore,
             category := data.category, questions := questions,
             createdAt := now, updatedAt := now },
           db ++ [{ id := newId, userId := data.userId, quizScore := data.quizScore,
                    category := data.category, questions := questions,
                    createdAt := now, updatedAt := now }])

/-- A stored assessment whose question array holds `null`. -/
def nullQuestionAssessment : Assessment :=
  { id := "assessment-2", userId := "user-a", quizScore := .fin 0 0, category := "geography",
    questions := [none], createdAt := 1, updatedAt := 1 }

/-- A caller for whom the identity check found nothing. -/
def sampleAnonymous : AuthResult := { user := none, userId := none }

/-- The overload error of the generation service. -/
def overloadError : JsError :=
  { status := .num 503, message := some "The model is overloaded. Please try again later." }

/-- The error of the generation service for a missing credential. -/
def keyError : JsError :=
  { status := .num 400, message := some "API key not valid. Please pass a valid API_KEY." }

/-- An error of the generation service while reading its own response stream. -/
def streamError : JsError :=
  { status := .undefined, message := some "Failed to parse stream" }

/-- A generation service that is overloaded twice and then answers. -/
def serviceTwoOverloads (text : String) : Nat → ServiceOutcome
  | 0 => .failure overloadError
  | 1 => .failure overloadError
  | _ => .success text

/-- A generation service that is overloaded once and then answers. -/
def serviceOneOverload (text : String) : Nat → ServiceOutcome
  | 0 => .failure overloadError
  | _ => .success text

/-- A generation service that answers at once. -/
def serviceText (text : String) : Nat → ServiceOutcome := fun _ => .success text

/-- A generation service that fails every call with the same error. -/
def serviceFailing (error : JsError) : Nat → ServiceOutcome := fun _ => .failure error

/-- A generation service that is overloaded once and then lacks its credential. -/
def serviceOverloadThenKey : Nat → ServiceOutcome
  | 0 => .failure overloadError
  | _ => .failure keyError

/-- A parser that agrees with `JSON.parse` on the sample texts: it accepts the
document with an empty question array, the empty object and `null`, and rejects the
text of `sampleGarbage`. -/
def sampleParse (text : String) : Option ParsedContent :=
  if text = "\x7b\"questions\": []\x7d" then some (.document (some []))
  else if text = "\x7b\x7d" then some (.document none)
  else if text = "null" then some .null
  else none

/-- A generated text that is not JSON. -/
def sampleGarbage : String := "Sorry, I cannot help with that."

/-- A generated text that is a fenced JSON document. -/
def sampleFenced : String := "```json\n\x7b\"questions\": []\x7d\n```"

/-- A store whose `create` fails with an error whose message contains `parse`. -/
def failingCreate (_db : Store) (_data : CreateData) : Except JsError (Assessment × Store) :=
  .error { status := .undefined, message := some "Unable to parse the connection string" }

/-! ## Prompt -/

/-- The profile attributes of the user record that the prompt reads; each is `none`
when the record holds `null`. -/
structure UserProfile where
  industry : Option String
  experience : Option Int
  skills : Option (List String)
  deriving DecidableEq

/-- The expression `user.industry || "technology"`. -/
def userIndustry (profile : UserProfile) : String :=
  match profile.industry with
  | none => "technology"
  | some industry => if industry = "" then "technology" else industry

/-- The expression `user.experience || "intermediate"`, as the template renders it. -/
def userExperience (profile : UserProfile) : String :=
  match profile.experience with
  | none => "intermediate"
  | some experience => if experience = 0 then "intermediate" else toString experience

/-- The expression `user.skills ? user.skills.join(", ") : "general skills"`. -/
def userSkills (profile : UserProfile) : String :=
  match profile.skills with
  | none => "general skills"
  | some skills => ", ".intercalate skills

/-- The template literal assigned to `prompt`, as a function of the values it
interpolates. -/
def promptTemplate (userIndustry userExperience userSkills topic difficulty
    questionCount : String) : String :=
  String.join [
    "\n",
    "    As an expert interviewer and career advisor, generate a technical assessment for a ",
    userIndustry,
    " professional with ",
    userExperience,
    " years of experience.\n",
    "    \n",
    "    Assessment Details:\n",
    "    Topic: ",
    topic,
    "\n",
    "    Difficulty: ",
    difficulty,
    "\n",
    "    Number of Questions: ",
    questionCount,
    "\n",
    "    \n",
    "    User Profile:\n",
    "    Industry: ",
    userIndustry,
    "\n",
    "    Experience: ",
    userExperience,
    " years\n",
    "    Skills: ",
    userSkills,
    "\n",
    "    \n",
    "    Requirements:\n",
    "    1. Generate exactly ",
    questionCount,
    " multiple choice questions\n",
    "    2. Include a mix of question types (technical, behavioral, situational)\n",
    "    3. Tailor questions to ",
    difficulty,
    " difficulty level\n",
    "    4. Focus on ",
    topic,
    " within the context of ",
    userIndustry,
    "\n",
    "    5. For each question, provide:\n",
    "       - The question text\n",
    "       - Four answer options (A, B, C, D)\n",
    "       - The correct answer (one of A, B, C, or D)\n",
    "       - An explanation for the correct answer\n",
    "       - Difficulty rating (1-5)\n",
    "       - Estimated time to answer (in minutes)\n",
    "       - Key skills being assessed\n",
    "    6. Format the response as JSON with the following structure:\n",
    "       \x7b\n",
    "         \"questions\": [\n",
    "           \x7b\n",
    "             \"question\": \"Question text\",\n",
    "             \"options\": [\"Option A\", \"Option B\", \"Option C\", \"Option D\"],\n",
    "             \"correctAnswer\": \"A\", // or B, C, D\n",
    "             \"explanation\": \"Explanation of why the correct answer is right\",\n",
    "             \"difficulty\": 1-5,\n",
    "             \"timeToAnswer\": \"minutes\",\n",
    "             \"skills\": [\"skill1\", \"skill2\"]\n",
    "           \x7d\n",
    "         ]\n",
    "       \x7d\n",
    "    7. Do not include any additional text, explanations, or markdown formatting\n",
    "    8. Make sure each question has exactly one correct answer\n",
    "    9. Ensure the options are plausible but only one is correct\n",
    "    10. Focus questions on the user\x27s industry and skills when relevant\n",
    "  "]

/-- The prompt built by `generateAssessment` for a profile and the requested topic,
difficulty and number of questions. -/
def assessmentPrompt (profile : UserProfile) (topic difficulty : String) (questionCount : Int) :
    String :=
  promptTemplate (userIndustry profile) (userExperience profile) (userSkills profile)
    topic difficulty (toString questionCount)

/-! ## Dashboard and quiz views -/

/-- The expression that defines `latestAssessment` in the dashboard view:
`assessments?.length > 0 ? assessments[assessments.length - 1] : null`. -/
def latestAssessment (assessments : List Assessment) : Option Assessment :=
  if assessments.length > 0 then assessments.get? (assessments.length - 1) else none

/-- The label `String.fromCharCode(65 + index)` the quiz view gives to the option at
`index` (a single character; `65 + index` stays below the surrogate range for every
option list that fits a page). -/
def optionLabel (index : Nat) : String := String.singleton (Char.ofNat (65 + index))

/-- The expression that defines `displayOption` in the quiz view: when the option
starts with its label and a period, `option.substring(optionLabel.length + 2).trim()`,
otherwise the option itself. -/
def displayOption (index : Nat) (option : String) : String :=
  if startsWith ((optionLabel index).data ++ ".".data) option.data then
    jsTrim ⟨option.data.drop ((optionLabel index).length + 2)⟩
  else option

/-! ## Roadmap generation -/

/-- One element of `steps` of a roadmap. -/
structure RoadmapStep where
  id : Nat
  title : String
  description : String
  duration : String
  status : String
  deriving DecidableEq

/-- The object literal that `createRoadmap` falls back to. -/
structure Roadmap where
  title : String
  description : String
  steps : List RoadmapStep
  deriving DecidableEq

/-- The default roadmap assigned in the handler of the inner `try` of
`createRoadmap`, when `JSON.parse` throws. -/
def parseFallbackRoadmap (careerField : String) : Roadmap :=
  { title := "Career Roadmap for " ++ careerField,
    description := "A comprehensive guide to building a career in " ++ careerField,
    steps := 
      [{ id := 1,
         title := "Research and Planning",
         description := "Research the field, required skills, and create a learning plan",
         duration := "1-2 months",
         status := "pending" },
       { id := 2,
         title := "Foundational Skills",
         description := "Learn the core skills and concepts needed for this field",
         duration := "3-6 months",
         status := "pending" },
       { id := 3,
         title := "Practical Experience",
         description := "Gain hands-on experience through projects, internships, or volunteering",
         duration := "3-6 months",
         status := "pending" },
       { id := 4,
         title := "Networking and Branding",
         description := "Build professional network and establish personal brand",
         duration := "Ongoing",
         status := "pending" },
       { id := 5,
         title := "Job Search and Application",
         description := "Prepare for interviews and apply for positions",
         duration := "1-3 months",
         status := "pending" }] }

/-- The default roadmap returned by the handler of the outer `try` of
`createRoadmap`, when the generation fails. -/
def generationFallbackRoadmap (careerField : String) : Roadmap :=
  { title := "Career Roadmap for " ++ careerField,
    description := "A comprehensive guide to building a career in " ++ careerField,
    steps := 
      [{ id := 1,
         title := "Research and Planning",
         description := "Research the field, required skills, and create a learning plan",
         duration := "1-2 months",
         status := "pending" },
       { id := 2,
         title := "Foundational Skills",
         description := "Learn the core skills and concepts needed for this field",
         duration := "3-6 months",
         status := "pending" },
       { id := 3,
         title := "Practical Experience",
         description := "Gain hands-on experience through projects, internships, or volunteering",
         duration := "3-6 months",
         status := "pending" },
       { id := 4,
         title := "Networking and Branding",
         description := "Build professional network and establish personal brand",
         duration := "Ongoing",
         status := "pending" },
       { id := 5,
         title := "Job Search and Application",
         description := "Prepare for interviews and apply for positions",
         duration := "1-3 months",
         status := "pending" }] }

/-- What `createRoadmap` returns: the value `JSON.parse` produced, or a default
roadmap. -/
inductive RoadmapContent (α : Type)
  | parsed (value : α)
  | fallback (roadmap : Roadmap)
  deriving DecidableEq

/-- The server action `createRoadmap(careerField)`: one call to the generation
service, whose outcome is `outcome`, then cleaning and `JSON.parse` (`parse`, `none`
when it throws). -/
def createRoadmap {α : Type} (auth : AuthResult) (outcome : ServiceOutcome)
    (parse : String → Option α) (careerField : String) : Except String (RoadmapContent α) :=
  match authenticated auth with
  | none => .error "Authentication required"
  | some _ =>
      match outcome with
      | .failure _ => .ok (.fallback (generationFallbackRoadmap careerField))
      | .success text =>
          match parse (cleanedContent (jsTrim text)) with
          | none => .ok (.fallback (parseFallbackRoadmap careerField))
          | some value => .ok (.parsed value)

/-- The four messages the handler of `generateAssessment` chooses from. -/
def fixedMessages : List String :=
  ["The AI service is currently overloaded. Please try again in a few moments.",
   "AI service configuration error. Please contact support.",
   "Failed to process AI response. Please try again.",
   "Failed to generate assessment. Please try again."]

/-- The character of which code fences are made. -/
def backtick : Char := Char.ofNat 96

/-- A stored question whose correct answer is a number instead of a letter. -/
def numericAnswerQuestion : Question :=
  { sampleQuestion with correctAnswer := .num 1 }

/-- A stored assessment with the question `numericAnswerQuestion`. -/
def numericAnswerAssessment : Assessment :=
  { id := "assessment-4", userId := "user-a", quizScore := .fin 0 0, category := "geography",
    questions := [some numericAnswerQuestion], createdAt := 1, updatedAt := 1 }

/-- A profile of a user at the start of a career: no year of experience yet. -/
def beginnerProfile : UserProfile :=
  { industry := some "finance", experience := some 0, skills := some ["sql", "excel"] }

/-- The owner's second assessment, created after `sampleScoredAssessment`. -/
def laterAssessment : Assessment :=
  { id := "assessment-5", userId := "user-a", quizScore := .fin 100 0, category := "history",
    questions := [some sampleQuestion], createdAt := 7, updatedAt := 8 }

/-- A thrown value that is an object with a status and no `message` member. -/
def bareError : JsError := { status := .num 500, message := none }

/-- The shape of a stored question list for which the result of a submission can be
built: no `null` element, and wherever a question has options its correct answer is
a string or a falsy value. -/
def breakdownDefined (questions : List (Option Question)) : Prop :=
  ∀ element ∈ questions, ∃ q, element = some q ∧
    (q.options = none ∨ q.correctAnswer.toBoolean = false ∨ ∃ s, q.correctAnswer = .str s)

/-! ## Arithmetic of the percentage -/

theorem bitLength_zero (fuel : Nat) : bitLength fuel 0 = 0 := by
  cases fuel <;> simp [bitLength]

theorem bitLength_pos (fuel n : Nat) (h : n ≤ fuel) (hn : 0 < n) : 0 < bitLength fuel n := by
  cases fuel with
  | zero => omega
  | succ f =>
      have hn0 : n ≠ 0 := by omega
      simp only [bitLength, hn0, if_false]
      omega

theorem lt_two_pow_bitLength (fuel n : Nat) (h : n ≤ fuel) : n < 2 ^ bitLength fuel n := by
  induction fuel generalizing n with
  | zero =>
      have h0 : n = 0 := by omega
      subst h0
      simp [bitLength]
  | succ f ih =>
      by_cases hn : n = 0
      · subst hn
        simp [bitLength]
      · have h2 := ih (n / 2) (by omega)
        simp only [bitLength, hn, if_false, pow_succ]
        omega

theorem two_pow_bitLength_le (fuel n : Nat) (h : n ≤ fuel) (hn : 0 < n) :
    2 ^ (bitLength fuel n - 1) ≤ n := by
  induction fuel generalizing n with
  | zero => omega
  | succ f ih =>
      have hn0 : n ≠ 0 := by omega
      simp only [bitLength, hn0, if_false, Nat.add_sub_cancel]
      by_cases h2 : n / 2 = 0
      · rw [h2, bitLength_zero]
        simpa using hn
      · have hpos := bitLength_pos f (n / 2) (by omega) (by omega)
        have h3 := ih (n / 2) (by omega) (by omega)
        have h4 : bitLength f (n / 2) = (bitLength f (n / 2) - 1) + 1 := by omega
        rw [h4, pow_succ]
        omega

theorem two_pow_log2Floor_le (n : Nat) (hn : 0 < n) : 2 ^ log2Floor n ≤ n :=
  two_pow_bitLength_le n n (Nat.le_refl n) hn

theorem lt_two_pow_log2Floor_succ (n : Nat) (hn : 0 < n) : n < 2 ^ (log2Floor n + 1) := by
  have h1 := lt_two_pow_bitLength n n (Nat.le_refl n)
  have h2 := bitLength_pos n n (Nat.le_refl n) hn
  have h3 : log2Floor n + 1 = bitLength n n := by
    unfold log2Floor
    omega
  rw [h3]
  exact h1

/-- Upper bound on the binary exponent of a quotient below `2^(k+1)`. -/
theorem floorLog2_le (a b k : Nat) (ha : 0 < a) (hb : 0 < b) (h : a < b * 2 ^ (k + 1)) :
    floorLog2 a b ≤ (k : Int) := by
  have hla := two_pow_log2Floor_le a ha
  have hlb := lt_two_pow_log2Floor_succ b hb
  unfold floorLog2
  simp only
  split
  · rename_i hc
    by_contra hcon
    have hlt : log2Floor b + (k + 1) ≤ log2Floor a := by omega
    have h1 : 2 ^ (log2Floor b + (k + 1)) ≤ 2 ^ log2Floor a :=
      Nat.pow_le_pow_right (by norm_num) hlt
    have h2 : b * 2 ^ (log2Floor b + (k + 1)) ≤ a * 2 ^ log2Floor b :=
      le_trans (Nat.mul_le_mul_left b h1) hc
    have h3 : a * 2 ^ log2Floor b < b * 2 ^ (k + 1) * 2 ^ log2Floor b :=
      Nat.mul_lt_mul_of_pos_right h (by positivity)
    have h4 : b * 2 ^ (k + 1) * 2 ^ log2Floor b = b * 2 ^ (log2Floor b + (k + 1)) := by
      rw [pow_add]; ring
    omega
  · by_contra hcon
    have hlt : (log2Floor b + 1) + (k + 1) ≤ log2Floor a := by omega
    have h1 : 2 ^ ((log2Floor b + 1) + (k + 1)) ≤ 2 ^ log2Floor a :=
      Nat.pow_le_pow_right (by norm_num) hlt
    have h2 : b * 2 ^ (k + 1) < 2 ^ (log2Floor b + 1) * 2 ^ (k + 1) :=
      Nat.mul_lt_mul_of_pos_right hlb (by positivity)
    have h3 : 2 ^ (log2Floor b + 1) * 2 ^ (k + 1) = 2 ^ ((log2Floor b + 1) + (k + 1)) :=
      (pow_add 2 (log2Floor b + 1) (k + 1)).symm
    omega

/-- Rounding to nearest never exceeds an integer upper bound of the quotient. -/
theorem roundHalfEven_le (a b n : Nat) (hb : 0 < b) (h : a ≤ n * b) : roundHalfEven a b ≤ n := by
  have hq : a / b ≤ n := Nat.div_le_of_le_mul (by rw [Nat.mul_comm]; exact h)
  have hdm := Nat.div_add_mod a b
  unfold roundHalfEven
  simp only
  rcases Nat.lt_or_ge (a / b) n with hlt | hge
  · split_ifs <;> omega
  · have hqn : a / b = n := by omega
    rw [hqn] at hdm
    have hbn : b * n = n * b := Nat.mul_comm b n
    have hr : a % b = 0 := by omega
    rw [hr, hqn]
    simp [hb]

theorem roundToDouble_zero (b : Nat) : roundToDouble 0 b = .fin 0 0 := by
  simp [roundToDouble]

/-- The rounded quotient is within half a unit of the exact quotient. -/
theorem roundHalfEven_near (a b : Nat) (hb : 0 < b) :
    2 * (roundHalfEven a b * b) ≤ 2 * a + b ∧ 2 * a ≤ 2 * (roundHalfEven a b * b) + b := by
  have hdm := Nat.div_add_mod a b
  have hcomm : b * (a / b) = a / b * b := Nat.mul_comm _ _
  have hsucc : (a / b + 1) * b = a / b * b + b := Nat.succ_mul _ _
  have hr := Nat.mod_lt a hb
  unfold roundHalfEven
  simp only
  split_ifs <;> (try rw [hsucc]) <;> omega

/-- The rounding error of `roundHalfEven` is at most one half. -/
theorem roundHalfEven_error (a b : Nat) (hb : 0 < b) :
    |((roundHalfEven a b : Nat) : ℚ) - (a : ℚ) / b| ≤ 1 / 2 := by
  obtain ⟨h1, h2⟩ := roundHalfEven_near a b hb
  have hbq : (0 : ℚ) < b := by exact_mod_cast hb
  have h1q : (2 : ℚ) * (roundHalfEven a b * b) ≤ 2 * a + b := by exact_mod_cast h1
  have h2q : (2 : ℚ) * a ≤ 2 * (roundHalfEven a b * b) + b := by exact_mod_cast h2
  rw [abs_le]
  constructor
  · rw [le_sub_iff_add_le, ← sub_eq_neg_add, sub_le_iff_le_add, div_le_iff₀ hbq]
    linarith
  · rw [sub_le_iff_le_add, ← sub_le_iff_le_add', le_div_iff₀ hbq]
    linarith

/-- The quotient of a positive count by the total, with its rounding error. -/
theorem roundToDouble_le_one (c N : Nat) (hc : 0 < c) (h : c ≤ N) :
    ∃ m s : Nat, m ≤ 2 ^ s ∧ roundToDouble c N = .fin m (-(s : Int)) ∧
      |(m : ℚ) / 2 ^ s - (c : ℚ) / N| ≤ 1 / 2 ^ 53 := by
  have hN : 0 < N := by omega
  have hE : floorLog2 c N ≤ ((0 : Nat) : Int) :=
    floorLog2_le c N 0 hc hN (by simp; omega)
  have hs : (0 : Int) ≤ 52 - floorLog2 c N := by omega
  obtain ⟨s, hsdef⟩ : ∃ s : Nat, (52 - floorLog2 c N).toNat = s := ⟨_, rfl⟩
  have hs52 : 52 ≤ s := by omega
  refine ⟨roundHalfEven (c * 2 ^ s) N, s, ?_, ?_, ?_⟩
  · apply roundHalfEven_le _ _ _ hN
    rw [Nat.mul_comm]
    exact Nat.mul_le_mul_left _ h
  · have h0 : (-(52 - floorLog2 c N)).toNat = 0 := Int.toNat_eq_zero.mpr (by omega)
    have hne : c ≠ 0 := by omega
    have hcast : ((s : Nat) : Int) = 52 - floorLog2 c N := by
      rw [← hsdef]
      exact Int.toNat_of_nonneg hs
    simp only [roundToDouble, hne, if_false, h0, pow_zero, mul_one, hsdef, hcast]
  · have herr := roundHalfEven_error (c * 2 ^ s) N hN
    have hpow : (0 : ℚ) < 2 ^ s := by positivity
    have hNq : (0 : ℚ) < N := by exact_mod_cast hN
    have hrew : (roundHalfEven (c * 2 ^ s) N : ℚ) / 2 ^ s - (c : ℚ) / N
        = ((roundHalfEven (c * 2 ^ s) N : ℚ) - ((c * 2 ^ s : Nat) : ℚ) / N) / 2 ^ s := by
      push_cast
      field_simp
      ring
    rw [hrew, abs_div, abs_of_pos hpow, div_le_iff₀ hpow]
    have hle : (2 : ℚ) ^ 52 ≤ 2 ^ s := pow_le_pow_right₀ (by norm_num) hs52
    calc |(roundHalfEven (c * 2 ^ s) N : ℚ) - ((c * 2 ^ s : Nat) : ℚ) / N| ≤ 1 / 2 := herr
      _ = 1 / 2 ^ 53 * 2 ^ 52 := by norm_num
      _ ≤ 1 / 2 ^ 53 * 2 ^ s := by gcongr

/-- The product by 100 of a value of at most one, with its rounding error. -/
theorem roundToDouble_mul_hundred (m s : Nat) (hm : m ≤ 2 ^ s) :
    ∃ m2 s2 : Nat, m2 ≤ 100 * 2 ^ s2 ∧ roundToDouble (m * 100) (2 ^ s) = .fin m2 (-(s2 : Int)) ∧
      |(m2 : ℚ) / 2 ^ s2 - 100 * ((m : ℚ) / 2 ^ s)| ≤ 1 / 2 ^ 47 := by
  by_cases hm0 : m = 0
  · subst hm0
    exact ⟨0, 0, by omega, by simp [roundToDouble], by norm_num⟩
  · have hpos : 0 < 2 ^ s := by positivity
    have hE : floorLog2 (m * 100) (2 ^ s) ≤ ((6 : Nat) : Int) :=
      floorLog2_le (m * 100) (2 ^ s) 6 (by omega) hpos (by norm_num; omega)
    have hs : (0 : Int) ≤ 52 - floorLog2 (m * 100) (2 ^ s) := by omega
    obtain ⟨s2, hsdef⟩ : ∃ s2 : Nat, (52 - floorLog2 (m * 100) (2 ^ s)).toNat = s2 := ⟨_, rfl⟩
    have hs46 : 46 ≤ s2 := by omega
    refine ⟨roundHalfEven (m * 100 * 2 ^ s2) (2 ^ s), s2, ?_, ?_, ?_⟩
    · apply roundHalfEven_le _ _ _ hpos
      have := Nat.mul_le_mul_right (100 * 2 ^ s2) hm
      calc m * 100 * 2 ^ s2 = m * (100 * 2 ^ s2) := by ring
        _ ≤ 2 ^ s * (100 * 2 ^ s2) := this
        _ = 100 * 2 ^ s2 * 2 ^ s := by ring
    · have h0 : (-(52 - floorLog2 (m * 100) (2 ^ s))).toNat = 0 :=
        Int.toNat_eq_zero.mpr (by omega)
      have hne : m * 100 ≠ 0 := by omega
      have hcast : ((s2 : Nat) : Int) = 52 - floorLog2 (m * 100) (2 ^ s) := by
        rw [← hsdef]
        exact Int.toNat_of_nonneg hs
      simp only [roundToDouble, hne, if_false, h0, pow_zero, mul_one, hsdef, hcast]
    · have herr := roundHalfEven_error (m * 100 * 2 ^ s2) (2 ^ s) hpos
      have hpow : (0 : ℚ) < 2 ^ s2 := by positivity
      have hrew : (roundHalfEven (m * 100 * 2 ^ s2) (2 ^ s) : ℚ) / 2 ^ s2
            - 100 * ((m : ℚ) / 2 ^ s)
          = ((roundHalfEven (m * 100 * 2 ^ s2) (2 ^ s) : ℚ)
              - ((m * 100 * 2 ^ s2 : Nat) : ℚ) / ((2 ^ s : Nat) : ℚ)) / 2 ^ s2 := by
        push_cast
        field_simp
        ring
      rw [hrew, abs_div, abs_of_pos hpow, div_le_iff₀ hpow]
      have hle : (2 : ℚ) ^ 46 ≤ 2 ^ s2 := pow_le_pow_right₀ (by norm_num) hs46
      calc |(roundHalfEven (m * 100 * 2 ^ s2) (2 ^ s) : ℚ)
              - ((m * 100 * 2 ^ s2 : Nat) : ℚ) / ((2 ^ s : Nat) : ℚ)| ≤ 1 / 2 := herr
        _ = 1 / 2 ^ 47 * 2 ^ 46 := by norm_num
        _ ≤ 1 / 2 ^ 47 * 2 ^ s2 := by gcongr

/-- Rounding a value of at most 100 to an integer gives at most 100. -/
theorem mathRound_le_hundred (m s : Nat) (hm : m ≤ 100 * 2 ^ s) :
    ∃ n : Nat, n ≤ 100 ∧ mathRound (.fin m (-(s : Int))) = .fin n 0 := by
  refine ⟨(2 * m + 2 ^ s) / (2 * 2 ^ s), ?_, ?_⟩
  · have hpos : 0 < 2 ^ s := by positivity
    have : (2 * m + 2 ^ s) / (2 * 2 ^ s) < 101 := by
      rw [Nat.div_lt_iff_lt_mul (by omega)]
      omega
    omega
  · simp [mathRound]

/-- The percentage of a count that does not exceed the total is an integer between
0 and 100. -/
theorem percentage_le_hundred (c N : Nat) (hN : 0 < N) (h : c ≤ N) :
    ∃ n : Nat, n ≤ 100 ∧ percentage c N = .fin n 0 := by
  have hdiv : jsDiv (.ofNat c) (.ofNat N) = roundToDouble c N := by
    simp [jsDiv, JsNumber.ofNat, hN.ne']
  rw [percentage, hdiv]
  by_cases hc : c = 0
  · subst hc
    refine ⟨0, by omega, ?_⟩
    rw [roundToDouble_zero]
    decide
  · obtain ⟨m, s, hm, hr, _⟩ := roundToDouble_le_one c N (by omega) h
    obtain ⟨m2, s2, hm2, hr2, _⟩ := roundToDouble_mul_hundred m s hm
    have hmul : jsMul (.fin m (-(s : Int))) (.ofNat 100) = .fin m2 (-(s2 : Int)) := by
      simp [jsMul, JsNumber.ofNat, hr2]
    rw [hr, hmul]
    exact mathRound_le_hundred m2 s2 hm2

/-- A full count gives 100. -/
theorem percentage_self (N : Nat) (hN : 0 < N) : percentage N N = .fin 100 0 := by
  have hN0 : N ≠ 0 := by omega
  have hlog : floorLog2 N N = 0 := by simp [floorLog2]
  have hround : roundToDouble N N = .fin (2 ^ 52) (-52) := by
    have hq : N * 2 ^ 52 / N = 2 ^ 52 := Nat.mul_div_cancel_left _ hN
    have hr : N * 2 ^ 52 % N = 0 := Nat.mul_mod_right _ _
    simp [roundToDouble, hN0, hlog, roundHalfEven, hq, hr, hN]
  have hdiv : jsDiv (.ofNat N) (.ofNat N) = roundToDouble N N := by
    simp [jsDiv, JsNumber.ofNat, hN0]
  rw [percentage, hdiv, hround]
  decide

/-- An empty count gives 0. -/
theorem percentage_zero (N : Nat) (hN : 0 < N) : percentage 0 N = .fin 0 0 := by
  have hdiv : jsDiv (.ofNat 0) (.ofNat N) = roundToDouble 0 N := by
    simp [jsDiv, JsNumber.ofNat, hN.ne']
  rw [percentage, hdiv, roundToDouble_zero]
  decide

/-- The computed percentage is the round-half-up of the exact percentage unless the
exact percentage is a tie `x.5`, and at a tie it is that value or one less. -/
theorem percentage_exact_off_ties (c N : Nat) (hN : 0 < N) (hcN : c ≤ N) (hbound : N < 2 ^ 32) :
    ∃ r : Nat, percentage c N = .fin r 0 ∧
      ((200 * c + N) % (2 * N) ≠ 0 → r = roundHalfUp (100 * c) N) ∧
      (r = roundHalfUp (100 * c) N ∨ r + 1 = roundHalfUp (100 * c) N) := by
  by_cases hc : c = 0
  · subst hc
    have hk : roundHalfUp (100 * 0) N = 0 := by
      unfold roundHalfUp
      exact Nat.div_eq_of_lt (by omega)
    exact ⟨0, percentage_zero N hN, fun _ => hk.symm, Or.inl hk.symm⟩
  · have hdiv : jsDiv (.ofNat c) (.ofNat N) = roundToDouble c N := by
      simp [jsDiv, JsNumber.ofNat, hN.ne']
    obtain ⟨m, s, hm, hr, he1⟩ := roundToDouble_le_one c N (by omega) hcN
    obtain ⟨m2, s2, _, hr2, he2⟩ := roundToDouble_mul_hundred m s hm
    have hmul : jsMul (.fin m (-(s : Int))) (.ofNat 100) = .fin m2 (-(s2 : Int)) := by
      simp [jsMul, JsNumber.ofNat, hr2]
    have hround : mathRound (.fin m2 (-(s2 : Int)))
        = .fin ((2 * m2 + 2 ^ s2) / (2 * 2 ^ s2)) 0 := by
      simp [mathRound]
    refine ⟨(2 * m2 + 2 ^ s2) / (2 * 2 ^ s2), ?_, ?_⟩
    · rw [percentage, hdiv, hr, hmul, hround]
    -- the exact percentage and its round-half-up `k`
    have hD : 0 < 2 * 2 ^ s2 := by positivity
    have hDq : (0 : ℚ) < 2 * 2 ^ s2 := by positivity
    have hNq : (0 : ℚ) < N := by exact_mod_cast hN
    have h2Nq : (0 : ℚ) < 2 * N := by positivity
    obtain ⟨k, hkdef⟩ : ∃ k, roundHalfUp (100 * c) N = k := ⟨_, rfl⟩
    have hk1 : k * (2 * N) ≤ 200 * c + N := by
      rw [← hkdef, roundHalfUp]
      have := Nat.div_mul_le_self (2 * (100 * c) + N) (2 * N)
      omega
    have hk2 : 200 * c + N + 1 ≤ (k + 1) * (2 * N) := by
      rw [← hkdef, roundHalfUp]
      have := Nat.lt_mul_div_succ (2 * (100 * c) + N) (show 0 < 2 * N by omega)
      have hcomm := Nat.mul_comm (2 * N) ((2 * (100 * c) + N) / (2 * N) + 1)
      omega
    have hk1q : (k : ℚ) * (2 * N) ≤ 200 * c + N := by exact_mod_cast hk1
    have hk2q : (200 : ℚ) * c + N + 1 ≤ (k + 1) * (2 * N) := by exact_mod_cast hk2
    have hexact : (100 : ℚ) * ((c : ℚ) / N) + 1 / 2 = (200 * c + N) / (2 * N) := by
      field_simp
      ring
    have hlow : (k : ℚ) ≤ 100 * ((c : ℚ) / N) + 1 / 2 := by
      rw [hexact, le_div_iff₀ h2Nq]
      exact hk1q
    have hupp : 100 * ((c : ℚ) / N) + 1 / 2 + 1 / (2 * N) ≤ k + 1 := by
      rw [hexact, ← add_div, div_le_iff₀ h2Nq]
      exact hk2q
    have hgap : (1 : ℚ) / 2 ^ 33 < 1 / (2 * N) := by
      apply one_div_lt_one_div_of_lt h2Nq
      have : (N : ℚ) < 2 ^ 32 := by exact_mod_cast hbound
      linarith
    -- the computed value lies within `2^-45` of the exact percentage
    obtain ⟨h1a, h1b⟩ := abs_le.mp he1
    obtain ⟨h2a, h2b⟩ := abs_le.mp he2
    have hXlow : (k : ℚ) - 1 < (m2 : ℚ) / 2 ^ s2 + 1 / 2 := by
      norm_num at h1a h2a hgap ⊢
      linarith
    have hXupp : (m2 : ℚ) / 2 ^ s2 + 1 / 2 < k + 1 := by
      norm_num at h1b h2b hgap hupp ⊢
      linarith
    have hval : (m2 : ℚ) / 2 ^ s2 + 1 / 2 = (2 * m2 + 2 ^ s2) / (2 * 2 ^ s2) := by
      field_simp
      ring
    rw [hval] at hXlow hXupp
    rw [div_lt_iff₀ hDq] at hXupp
    rw [lt_div_iff₀ hDq] at hXlow
    have hU : 2 * m2 + 2 ^ s2 < (k + 1) * (2 * 2 ^ s2) := by exact_mod_cast hXupp
    have hle : (2 * m2 + 2 ^ s2) / (2 * 2 ^ s2) ≤ k :=
      Nat.lt_succ_iff.mp ((Nat.div_lt_iff_lt_mul hD).mpr hU)
    rw [hkdef]
    constructor
    · intro htie
      have hk1s : k * (2 * N) + 1 ≤ 200 * c + N := by
        rcases Nat.lt_or_ge (k * (2 * N)) (200 * c + N) with h | h
        · exact h
        · exfalso
          apply htie
          have heq : 200 * c + N = 2 * N * k := by
            rw [Nat.mul_comm (2 * N) k]
            omega
          rw [heq]
          exact Nat.mul_mod_right _ _
      have hk1sq : (k : ℚ) * (2 * N) + 1 ≤ 200 * c + N := by exact_mod_cast hk1s
      have hlow2 : (k : ℚ) + 1 / (2 * N) ≤ 100 * ((c : ℚ) / N) + 1 / 2 := by
        rw [hexact, le_div_iff₀ h2Nq, add_mul, div_mul_cancel₀ _ h2Nq.ne']
        exact hk1sq
      have hXlow2 : (k : ℚ) < (m2 : ℚ) / 2 ^ s2 + 1 / 2 := by
        norm_num at h1a h2a hgap hlow2 ⊢
        linarith
      rw [hval, lt_div_iff₀ hDq] at hXlow2
      have hL : k * (2 * 2 ^ s2) ≤ 2 * m2 + 2 ^ s2 := by
        have : k * (2 * 2 ^ s2) < 2 * m2 + 2 ^ s2 := by exact_mod_cast hXlow2
        omega
      exact le_antisymm hle ((Nat.le_div_iff_mul_le hD).mpr hL)
    · have hge : k ≤ (2 * m2 + 2 ^ s2) / (2 * 2 ^ s2) + 1 := by
        by_contra hcon
        have h2 : (2 * m2 + 2 ^ s2) / (2 * 2 ^ s2) + 2 ≤ k := by omega
        have h3 := Nat.lt_mul_div_succ (2 * m2 + 2 ^ s2) hD
        have h4 : ((2 * m2 + 2 ^ s2) / (2 * 2 ^ s2) + 2) * (2 * 2 ^ s2) ≤ k * (2 * 2 ^ s2) :=
          Nat.mul_le_mul_right _ h2
        have h5 : ((k : ℚ) - 1) * (2 * 2 ^ s2) < 2 * m2 + 2 ^ s2 := hXlow
        have h6 : (k : ℚ) * (2 * 2 ^ s2) < 2 * m2 + 2 ^ s2 + 2 * 2 ^ s2 := by linarith
        have h7 : k * (2 * 2 ^ s2) < 2 * m2 + 2 ^ s2 + 2 * 2 ^ s2 := by exact_mod_cast h6
        have h8 : ((2 * m2 + 2 ^ s2) / (2 * 2 ^ s2) + 2) * (2 * 2 ^ s2)
            = ((2 * m2 + 2 ^ s2) / (2 * 2 ^ s2) + 1) * (2 * 2 ^ s2) + 2 * 2 ^ s2 := by ring
        have hcomm := Nat.mul_comm (2 * 2 ^ s2) ((2 * m2 + 2 ^ s2) / (2 * 2 ^ s2) + 1)
        omega
      omega

/-! ## The count -/

theorem foldl_count (p : Nat → Bool) (l : List Nat) (k : Nat) :
    l.foldl (fun acc i => if p i then acc + 1 else acc) k = k + (l.filter p).length := by
  induction l generalizing k with
  | nil => simp
  | cons x xs ih =>
      simp only [List.foldl_cons, List.filter_cons]
      rw [ih]
      by_cases hp : p x
      · simp [hp]
        omega
      · simp [hp]

/-- The loop counts exactly the indices of `countedIndices`. -/
theorem countCorrect_eq (questions : List (Option Question)) (answers : List JsVal) :
    countCorrect questions answers = (countedIndices questions answers).length := by
  simp [countCorrect, countedIndices, foldl_count]

theorem countCorrect_le (questions : List (Option Question)) (answers : List JsVal) :
    countCorrect questions answers ≤ questions.length := by
  rw [countCorrect_eq, countedIndices]
  exact le_trans (List.length_filter_le _ _) (by simp)

/-! ## Claims about the score -/

/-- C1 (the code departs from the claim): on a stored list of 40 questions with 23
correctly answered, the exact percentage is 57.5 and round-half-up gives 58, but
`submitAssessmentAnswers` evaluates `(23 / 40) * 100` in binary64, obtains
57.49999999999999 and stores 57. -/
theorem quizScore_tie_rounds_down :
    (List.replicate 40 (some sampleQuestion)).length = 40 ∧
    (countedIndices (List.replicate 40 (some sampleQuestion))
      (List.replicate 23 (.str "B") ++ List.replicate 17 (.str "A"))).length = 23 ∧
    jsMul (jsDiv (.ofNat 23) (.ofNat 40)) (.ofNat 100) = .fin 8092405580431359 (-47) ∧
    computeQuizScore (List.replicate 40 (some sampleQuestion))
      (List.replicate 23 (.str "B") ++ List.replicate 17 (.str "A")) = .fin 57 0 ∧
    roundHalfUp (100 * 23) 40 = 58 := by
  decide

/-- The score is the rounded percentage of the counted indices over the stored
length, and answers past the stored length do not affect it. -/
theorem computeQuizScore_eq (questions : List (Option Question)) (answers extra : List JsVal)
    (h : questions.length ≤ answers.length) :
    computeQuizScore questions answers
        = percentage (countedIndices questions answers).length questions.length ∧
    computeQuizScore questions (answers ++ extra) = computeQuizScore questions answers := by
  refine ⟨by rw [computeQuizScore, countCorrect_eq], ?_⟩
  have hidx : countedIndices questions (answers ++ extra) = countedIndices questions answers := by
    unfold countedIndices
    apply List.filter_congr
    intro i hi
    have hlt : i < answers.length := lt_of_lt_of_le (List.mem_range.mp hi) h
    simp [jsIndex, List.getD_eq_getElem?_getD, List.getElem?_append_left hlt]
  rw [computeQuizScore, computeQuizScore, countCorrect_eq, countCorrect_eq, hidx]

/-- The score of a stored list of fewer than `2^32` questions is the round-half-up
of the exact percentage of the counted indices, unless that percentage is a tie
`x.5`, where it is that value or one less. -/
theorem computeQuizScore_exact_off_ties (questions : List (Option Question))
    (answers : List JsVal) (hN : 0 < questions.length) (hbound : questions.length < 2 ^ 32) :
    ∃ r : Nat, computeQuizScore questions answers = .fin r 0 ∧
      ((200 * (countedIndices questions answers).length + questions.length)
          % (2 * questions.length) ≠ 0 →
        r = roundHalfUp (100 * (countedIndices questions answers).length) questions.length) ∧
      (r = roundHalfUp (100 * (countedIndices questions answers).length) questions.length ∨
        r + 1 = roundHalfUp (100 * (countedIndices questions answers).length)
          questions.length) := by
  have h := percentage_exact_off_ties (countCorrect questions answers) questions.length hN
    (countCorrect_le questions answers) hbound
  rw [countCorrect_eq] at h
  rw [computeQuizScore, countCorrect_eq]
  exact h

/-- The sample scores of the specification: 7 of 10 gives 70, 1 of 3 gives 33 and
2 of 3 gives 67. -/
theorem percentage_samples :
    percentage 7 10 = .fin 70 0 ∧ percentage 1 3 = .fin 33 0 ∧ percentage 2 3 = .fin 67 0 := by
  decide

/-- C2: when every stored question carries a letter `A`-`D` as correct answer and
every submitted answer equals it, the score is 100. -/
theorem all_correct_scores_hundred (questions : List (Option Question)) (answers : List JsVal)
    (hN : 0 < questions.length)
    (h : ∀ i, i < questions.length → ∃ q, questions.getD i none = some q ∧
      (q.correctAnswer = .str "A" ∨ q.correctAnswer = .str "B" ∨
        q.correctAnswer = .str "C" ∨ q.correctAnswer = .str "D") ∧
      jsIndex answers i = q.correctAnswer) :
    computeQuizScore questions answers = .fin 100 0 := by
  have hall : countedIndices questions answers = List.range questions.length := by
    unfold countedIndices
    rw [List.filter_eq_self]
    intro i hi
    obtain ⟨q, hq, hletter, ha⟩ := h i (List.mem_range.mp hi)
    rw [hq, ha]
    rcases hletter with hl | hl | hl | hl <;> rw [countsAsCorrect, hl] <;> decide
  rw [computeQuizScore, countCorrect_eq, hall, List.length_range]
  exact percentage_self _ hN

theorem all_correct_scores_hundred_witness :
    0 < [some sampleQuestion, some sampleQuestion].length ∧
    computeQuizScore [some sampleQuestion, some sampleQuestion] [.str "B", .str "B"]
      = .fin 100 0 :=
  ⟨by decide,
   all_correct_scores_hundred [some sampleQuestion, some sampleQuestion] [.str "B", .str "B"]
     (by decide)
     (by
       intro i hi
       have hi2 : i < 2 := hi
       interval_cases i <;> exact ⟨sampleQuestion, rfl, Or.inr (Or.inl rfl), rfl⟩)⟩

/-- C3: when no submitted answer equals the stored correct answer at its index, the
score is 0. -/
theorem none_correct_scores_zero (questions : List (Option Question)) (answers : List JsVal)
    (hN : 0 < questions.length)
    (h : ∀ i q, i < questions.length → questions.getD i none = some q →
      strictEq q.correctAnswer (jsIndex answers i) = false) :
    computeQuizScore questions answers = .fin 0 0 := by
  have hnone : countedIndices questions answers = [] := by
    unfold countedIndices
    rw [List.filter_eq_nil_iff]
    intro i hi
    cases hq : questions.getD i none with
    | none => simp [countsAsCorrect]
    | some q => simp [countsAsCorrect, h i q (List.mem_range.mp hi) hq]
  rw [computeQuizScore, countCorrect_eq, hnone]
  exact percentage_zero _ hN

theorem none_correct_scores_zero_witness :
    0 < [some sampleQuestion, some sampleQuestion].length ∧
    computeQuizScore [some sampleQuestion, some sampleQuestion] [.str "A", .str "C", .str "B"]
      = .fin 0 0 :=
  ⟨by decide,
   none_correct_scores_zero [some sampleQuestion, some sampleQuestion]
     [.str "A", .str "C", .str "B"] (by decide)
     (by
       intro i q hi hq
       have hi2 : i < 2 := hi
       interval_cases i
       · have hq2 : q = sampleQuestion := by simpa using hq.symm
         subst hq2
         decide
       · have hq2 : q = sampleQuestion := by simpa using hq.symm
         subst hq2
         decide)⟩

/-- C4: an index whose submitted answer is missing (past the end of `answers`),
`null` or the empty string fails the test of the scoring loop and is not among
the counted indices, whatever the stored correct answer is; the comparison is
exact, so a submitted `a` does not match a stored `A`. -/
theorem unanswered_never_counted (questions : List (Option Question)) (answers : List JsVal)
    (i : Nat)
    (h : answers.length ≤ i ∨ jsIndex answers i = .undefined ∨ jsIndex answers i = .null ∨
      jsIndex answers i = .str "") :
    countsAsCorrect (questions.getD i none) (jsIndex answers i) = false ∧
    i ∉ countedIndices questions answers ∧
    countCorrect questions answers = (countedIndices questions answers).length ∧
    (∀ q : Question, q.correctAnswer = .str "A" → countsAsCorrect (some q) (.str "a") = false) := by
  have hfalsy : (jsIndex answers i).toBoolean = false := by
    rcases h with h | h | h | h
    · have : jsIndex answers i = .undefined := by
        simp [jsIndex, List.getD_eq_getElem?_getD, List.getElem?_eq_none h]
      rw [this]
      rfl
    · rw [h]
      rfl
    · rw [h]
      rfl
    · rw [h]
      rfl
  have htest : countsAsCorrect (questions.getD i none) (jsIndex answers i) = false := by
    cases questions.getD i none with
    | none => rfl
    | some q => simp [countsAsCorrect, hfalsy]
  refine ⟨htest, ?_, countCorrect_eq questions answers, ?_⟩
  · intro hmem
    have := (List.mem_filter.mp hmem).2
    rw [htest] at this
    exact Bool.false_ne_true this
  · intro q hq
    rw [countsAsCorrect, hq]
    decide

theorem unanswered_never_counted_witness :
    countsAsCorrect ([some sampleQuestion, some sampleQuestion].getD 1 none)
        (jsIndex [.str "B"] 1) = false ∧
    1 ∉ countedIndices [some sampleQuestion, some sampleQuestion] [.str "B"] ∧
    countCorrect [some sampleQuestion, some sampleQuestion] [.str "B"]
      = (countedIndices [some sampleQuestion, some sampleQuestion] [.str "B"]).length ∧
    (∀ q : Question, q.correctAnswer = .str "A" → countsAsCorrect (some q) (.str "a") = false) :=
  unanswered_never_counted [some sampleQuestion, some sampleQuestion] [.str "B"] 1
    (Or.inl (by decide))

/-- C5 (the code departs from the claim): for a stored question whose correct answer
is the empty string and a submitted empty answer, and for a stored question without
a correct answer and a missing answer, the breakdown flags the entry `isCorrect`
although the scoring loop did not count it: the score is 0 while one entry of one
is flagged correct. -/
theorem isCorrect_flag_disagrees_with_count :
    (breakdown [some { sampleQuestion with correctAnswer := .str "" }] [.str ""]).map
        (fun entries => entries.map (fun e => e.isCorrect)) = some [true] ∧
    countCorrect [some { sampleQuestion with correctAnswer := .str "" }] [.str ""] = 0 ∧
    computeQuizScore [some { sampleQuestion with correctAnswer := .str "" }] [.str ""]
      = .fin 0 0 ∧
    (breakdown [some { sampleQuestion with correctAnswer := .undefined }] []).map
        (fun entries => entries.map (fun e => e.isCorrect)) = some [true] ∧
    computeQuizScore [some { sampleQuestion with correctAnswer := .undefined }] [] = .fin 0 0 ∧
    percentage 1 1 = .fin 100 0 := by
  decide

/-- For a stored question whose correct answer is a non-empty string, the flag of the
breakdown agrees with the test of the scoring loop. -/
theorem isCorrect_eq_countsAsCorrect (q : Question) (userAnswer : JsVal) (s : String)
    (hq : q.correctAnswer = .str s) (hs : s ≠ "") :
    isCorrect q userAnswer = countsAsCorrect (some q) userAnswer := by
  rw [isCorrect, countsAsCorrect, hq]
  cases userAnswer with
  | str t =>
      by_cases hts : t = s
      · subst hts
        simp [strictEq, JsVal.toBoolean, hs]
      · have hst : ¬ s = t := fun h => hts h.symm
        simp [strictEq, hts, hst]
  | undefined => simp [strictEq, JsVal.toBoolean]
  | null => simp [strictEq, JsVal.toBoolean]
  | bool b => simp [strictEq, JsVal.toBoolean]
  | num n => simp [strictEq, JsVal.toBoolean]
  | obj => simp [strictEq, JsVal.toBoolean]

/-! ## Claims about the breakdown -/

/-- C6: with four options and a correct answer among `A`, `B`, `C`, `D`, the displayed
text is the option at index 0, 1, 2, 3 respectively. -/
theorem correctAnswerText_letter (q : Question) (o0 o1 o2 o3 : JsVal)
    (h : q.options = some [o0, o1, o2, o3]) :
    (q.correctAnswer = .str "A" → correctAnswerText q = some o0) ∧
    (q.correctAnswer = .str "B" → correctAnswerText q = some o1) ∧
    (q.correctAnswer = .str "C" → correctAnswerText q = some o2) ∧
    (q.correctAnswer = .str "D" → correctAnswerText q = some o3) := by
  obtain ⟨qq, opts, ca, ex⟩ := q
  simp only at h
  subst h
  refine ⟨?_, ?_, ?_, ?_⟩ <;> intro hc <;> simp only at hc <;> subst hc <;> rfl

theorem correctAnswerText_letter_witness :
    sampleQuestion.options = some [.str "Paris", .str "London", .str "Berlin", .str "Madrid"] ∧
    sampleQuestion.correctAnswer = .str "B" ∧
    correctAnswerText sampleQuestion = some (.str "London") :=
  ⟨rfl, rfl,
   (correctAnswerText_letter sampleQuestion (.str "Paris") (.str "London") (.str "Berlin")
     (.str "Madrid") rfl).2.1 rfl⟩

/-- C7 as stated fails: the correct answers `B)` and `Apple` are not among the
letters, yet with four options the displayed text is the second, respectively the
first, option and not the raw value. -/
theorem correctAnswerText_multichar_resolved :
    correctAnswerText { sampleQuestion with correctAnswer := .str "B)" } = some (.str "London") ∧
    JsVal.str "London" ≠ JsVal.str "B)" ∧
    correctAnswerText { sampleQuestion with correctAnswer := .str "Apple" }
      = some (.str "Paris") := by
  decide

/-- C7 amended: the displayed text is the raw correct answer when `options` is absent,
when the correct answer is falsy (absent, `null`, empty string), or when it is a
string whose first code unit minus 65 is not an index of `options`; and a string
whose first code unit minus 65 is an index of `options` is resolved to that option,
whatever follows its first character. -/
theorem correctAnswerText_fallback (q : Question) :
    ((q.options = none ∨ q.correctAnswer.toBoolean = false ∨
        ∃ s opts k, q.correctAnswer = .str s ∧ q.options = some opts ∧
          answerIndex s = some k ∧ ¬ (0 ≤ k ∧ k < opts.length)) →
      correctAnswerText q = some q.correctAnswer) ∧
    (∀ s opts k, q.correctAnswer = .str s → q.options = some opts →
      answerIndex s = some k → 0 ≤ k → k < opts.length →
      correctAnswerText q = some (jsIndex opts k.toNat)) := by
  obtain ⟨qq, options, ca, ex⟩ := q
  constructor
  · rintro (h | h | ⟨s, opts, k, hs, ho, hk, hout⟩)
    · simp only at h
      subst h
      rfl
    · simp only at h
      cases options with
      | none => rfl
      | some opts => simp [correctAnswerText, h]
    · simp only at hs ho
      subst hs ho
      by_cases ht : (JsVal.str s).toBoolean = true
      · simp [correctAnswerText, ht, hk, hout]
      · simp [correctAnswerText, ht]
  · intro s opts k hs ho hk h0 hlt
    simp only at hs ho
    subst hs ho
    have hne : s ≠ "" := by
      intro he
      subst he
      simp [answerIndex, charCodeAt0] at hk
    have ht : (JsVal.str s).toBoolean = true := by simp [JsVal.toBoolean, hne]
    simp [correctAnswerText, ht, hk, h0, hlt]

theorem correctAnswerText_fallback_witness :
    correctAnswerText { sampleQuestion with correctAnswer := .str "a" } = some (.str "a") ∧
    correctAnswerText { sampleQuestion with correctAnswer := .str "" } = some (.str "") ∧
    correctAnswerText { sampleQuestion with correctAnswer := .str "E" } = some (.str "E") ∧
    correctAnswerText { sampleQuestion with correctAnswer := .str "B)" }
      = some (jsIndex [.str "Paris", .str "London", .str "Berlin", .str "Madrid"] 1) :=
  ⟨(correctAnswerText_fallback { sampleQuestion with correctAnswer := .str "a" }).1
      (Or.inr (Or.inr ⟨"a", [.str "Paris", .str "London", .str "Berlin", .str "Madrid"], 32,
        rfl, rfl, by decide, by decide⟩)),
   (correctAnswerText_fallback { sampleQuestion with correctAnswer := .str "" }).1
      (Or.inr (Or.inl (by decide))),
   (correctAnswerText_fallback { sampleQuestion with correctAnswer := .str "E" }).1
      (Or.inr (Or.inr ⟨"E", [.str "Paris", .str "London", .str "Berlin", .str "Madrid"], 4,
        rfl, rfl, by decide, by decide⟩)),
   (correctAnswerText_fallback { sampleQuestion with correctAnswer := .str "B)" }).2
      "B)" [.str "Paris", .str "London", .str "Berlin", .str "Madrid"] 1 rfl rfl
      (by decide) (by decide) (by decide)⟩

/-! ## The store -/

theorem findUnique_some {db : Store} {id userId : String} {a : Assessment}
    (h : findUnique db id userId = some a) : a ∈ db ∧ a.id = id ∧ a.userId = userId := by
  have hmem := List.mem_of_find?_eq_some h
  have hp := List.find?_some h
  simp [ownedBy] at hp
  exact ⟨hmem, hp.1, hp.2⟩

theorem eq_of_uniqueIds {db : Store} (hu : uniqueIds db) {x y : Assessment}
    (hx : x ∈ db) (hy : y ∈ db) (h : x.id = y.id) : x = y :=
  List.inj_on_of_nodup_map hu hx hy h

/-- A record owned by someone else is not found. -/
theorem findUnique_other_owner {db : Store} (hu : uniqueIds db) {a : Assessment} (ha : a ∈ db)
    {userId : String} (hne : a.userId ≠ userId) : findUnique db a.id userId = none := by
  cases hf : findUnique db a.id userId with
  | none => rfl
  | some x =>
      obtain ⟨hx, hid, huid⟩ := findUnique_some hf
      have hxa : x = a := eq_of_uniqueIds hu hx ha hid
      subst hxa
      exact absurd huid hne

/-- The store state after a submit call. -/
theorem submit_store (auth : AuthResult) (db : Store) (now : Nat) (id : String)
    (answers : List JsVal) :
    (submitAssessmentAnswers auth db now id answers).2 = db ∨
    ∃ user a, authenticated auth = some user ∧ findUnique db id user.id = some a ∧
      (submitAssessmentAnswers auth db now id answers).2 =
        db.map (fun x => if ownedBy id user.id x
          then withScore (computeQuizScore a.questions answers) now x else x) := by
  cases hauth : authenticated auth with
  | none => left; simp [submitAssessmentAnswers, scoreSubmission, hauth]
  | some user =>
      cases hf : findUnique db id user.id with
      | none => left; simp [submitAssessmentAnswers, scoreSubmission, hauth, hf]
      | some a =>
          right
          refine ⟨user, a, rfl, hf, ?_⟩
          cases hb : breakdown a.questions answers <;>
            simp [submitAssessmentAnswers, scoreSubmission, hauth, hf, dbUpdate, hb]

/-- The store state after a delete call. -/
theorem delete_store (auth : AuthResult) (db : Store) (id : String) :
    (deleteAssessment auth db id).2 = db ∨
    ∃ user : User, (deleteAssessment auth db id).2 = db.filter (fun x => !ownedBy id user.id x) := by
  cases hauth : authenticated auth with
  | none => left; simp [deleteAssessment, hauth]
  | some user =>
      cases hf : findUnique db id user.id with
      | none => left; simp [deleteAssessment, hauth, hf]
      | some a => right; exact ⟨user, by simp [deleteAssessment, hauth, hf, dbDelete]⟩

theorem withScore_id (s : JsNumber) (now : Nat) (x : Assessment) :
    (withScore s now x).id = x.id := rfl

theorem uniqueIds_map_withScore {db : Store} (hu : uniqueIds db) (p : Assessment → Bool)
    (s : JsNumber) (now : Nat) :
    uniqueIds (db.map (fun x => if p x then withScore s now x else x)) := by
  have hids : (db.map (fun x => if p x then withScore s now x else x)).map (fun a => a.id)
      = db.map (fun a => a.id) := by
    rw [List.map_map]
    apply List.map_congr_left
    intro x _
    by_cases hp : p x <;> simp [hp, withScore_id]
  unfold uniqueIds
  rw [hids]
  exact hu

/-- Every transition keeps identifiers unique. -/
theorem uniqueIds_step {db db1 : Store} (hu : uniqueIds db) (hs : Step db db1) :
    uniqueIds db1 := by
  cases hs with
  | generate _ newId now user topic questions fresh =>
      unfold uniqueIds at hu ⊢
      simp only [createAssessment, List.map_append, List.map_cons, List.map_nil]
      rw [List.nodup_append]
      refine ⟨hu, List.nodup_singleton _, ?_⟩
      intro i hi hi2
      obtain ⟨a, ha, hai⟩ := List.mem_map.mp hi
      have : i = newId := by simpa using hi2
      exact fresh a ha (hai.trans this)
  | submit auth _ now id answers =>
      rcases submit_store auth db now id answers with h | ⟨user, a, _, _, h⟩
      · rw [h]; exact hu
      · rw [h]; exact uniqueIds_map_withScore hu _ _ _
  | delete auth _ id =>
      rcases delete_store auth db id with h | ⟨user, h⟩
      · rw [h]; exact hu
      · rw [h]
        exact List.Nodup.sublist (List.Sublist.map _ (List.filter_sublist _)) hu

theorem uniqueIds_of_reachable {db : Store} (h : Reachable db) : uniqueIds db := by
  induction h with
  | empty => exact List.nodup_nil
  | step _ hs ih => exact uniqueIds_step ih hs

theorem computeQuizScore_in_range (questions : List (Option Question)) (answers : List JsVal)
    (h : questions ≠ []) : ∃ n : Nat, n ≤ 100 ∧ computeQuizScore questions answers = .fin n 0 :=
  percentage_le_hundred _ _ (List.length_pos.mpr h) (countCorrect_le questions answers)

theorem scoreInRange_step {db db1 : Store} (hu : uniqueIds db)
    (hinv : ∀ a ∈ db, scoreInRange a) (hs : Step db db1) : ∀ a ∈ db1, scoreInRange a := by
  cases hs with
  | generate _ newId now user topic questions fresh =>
      intro a ha
      simp only [createAssessment, List.mem_append, List.mem_singleton] at ha
      rcases ha with ha | ha
      · exact hinv a ha
      · subst ha
        intro _
        exact ⟨0, by omega, rfl⟩
  | submit auth _ now id answers =>
      rcases submit_store auth db now id answers with h | ⟨user, a, _, hf, h⟩
      · rw [h]; exact hinv
      · rw [h]
        intro y hy
        obtain ⟨x, hx, hxy⟩ := List.mem_map.mp hy
        by_cases hown : ownedBy id user.id x = true
        · rw [if_pos hown] at hxy
          subst hxy
          obtain ⟨hmem, hid, _⟩ := findUnique_some hf
          have hidx : x.id = id := by
            simp [ownedBy] at hown
            exact hown.1
          have hxa : x = a := eq_of_uniqueIds hu hx hmem (hidx.trans hid.symm)
          subst hxa
          intro hq
          exact computeQuizScore_in_range x.questions answers hq
        · rw [if_neg hown] at hxy
          subst hxy
          exact hinv x hx
  | delete auth _ id =>
      rcases delete_store auth db id with h | ⟨user, h⟩
      · rw [h]; exact hinv
      · rw [h]
        intro a ha
        exact hinv a (List.mem_filter.mp ha).1

/-! ## Claims about the store -/

/-- C8: in every store state reachable by generate, submit and delete calls, each
assessment with a non-empty question list carries an integer score between 0 and
100; a generated assessment is created with score 0; and a submit call that reaches
the update of an assessment with a non-empty question list stores, and on success
returns, an integer score between 0 and 100. -/
theorem quizScore_in_range (db : Store) (hreach : Reachable db) :
    (∀ a ∈ db, scoreInRange a) ∧
    (∀ newId now user topic questions,
      (createAssessment db newId now user topic questions).1.quizScore = .fin 0 0) ∧
    (∀ auth now id answers user a, authenticated auth = some user →
      findUnique db id user.id = some a → a.questions ≠ [] →
      ∃ n : Nat, n ≤ 100 ∧ computeQuizScore a.questions answers = .fin n 0 ∧
        (∀ x ∈ (submitAssessmentAnswers auth db now id answers).2,
          ownedBy id user.id x = true → x.quizScore = .fin n 0) ∧
        (∀ r, (submitAssessmentAnswers auth db now id answers).1 = .ok r →
          r.quizScore = .fin n 0)) := by
  refine ⟨?_, fun _ _ _ _ _ => rfl, ?_⟩
  · induction hreach with
    | empty => intro a ha; simp at ha
    | step hr hs ih => exact scoreInRange_step (uniqueIds_of_reachable hr) ih hs
  · intro auth now id answers user a hauth hf hq
    obtain ⟨n, hn, hscore⟩ := computeQuizScore_in_range a.questions answers hq
    refine ⟨n, hn, hscore, ?_, ?_⟩
    · intro x hx hown
      have hstore : (submitAssessmentAnswers auth db now id answers).2 =
          db.map (fun x => if ownedBy id user.id x
            then withScore (computeQuizScore a.questions answers) now x else x) := by
        cases hb : breakdown a.questions answers <;>
          simp [submitAssessmentAnswers, scoreSubmission, hauth, hf, dbUpdate, hb]
      rw [hstore] at hx
      obtain ⟨y, _, hyx⟩ := List.mem_map.mp hx
      by_cases hy : ownedBy id user.id y = true
      · rw [if_pos hy] at hyx
        rw [← hyx, ← hscore]
        rfl
      · rw [if_neg hy] at hyx
        rw [hyx] at hy
        exact absurd hown hy
    · intro r hr
      cases hb : breakdown a.questions answers with
      | none =>
          simp [submitAssessmentAnswers, scoreSubmission, hauth, hf, dbUpdate, hb] at hr
      | some entries =>
          simp [submitAssessmentAnswers, scoreSubmission, hauth, hf, dbUpdate, hb] at hr
          rw [← hr, ← hscore]
          rfl

theorem quizScore_in_range_witness :
    Reachable sampleStoreScored ∧
    sampleStoreScored = [sampleScoredAssessment] ∧
    ∀ a ∈ sampleStoreScored, scoreInRange a :=
  have hreach : Reachable sampleStoreScored :=
    Reachable.step
      (Reachable.step Reachable.empty
        (Step.generate [] "assessment-1" 1 { id := "user-a" } "geography"
          [some sampleQuestion, some sampleQuestion, some sampleQuestion]
          (by intro a ha; simp at ha)))
      (Step.submit sampleOwner sampleStore 2 "assessment-1" [.str "B", .str "A"])
  ⟨hreach, by decide, (quizScore_in_range sampleStoreScored hreach).1⟩

/-- C9 as stated fails: for an owned assessment with an empty question list the
submission is not rejected before the percentage, and the computed score is `NaN`,
not 0. -/
theorem empty_question_list_scores_nan :
    emptyAssessment.questions = [] ∧
    scoreSubmission sampleOwner [emptyAssessment] "assessment-0" [.str "A"]
      = .ok ({ id := "user-a" }, emptyAssessment, JsNumber.nan) ∧
    JsNumber.nan ≠ JsNumber.fin 0 0 := by
  decide

/-- C9 amended: no guard protects the percentage.  Whenever an authenticated caller
submits answers for an owned assessment whose question list is empty, the division
`0 / 0` is evaluated and the score handed to the store update is `NaN`. -/
theorem empty_question_list_unguarded (auth : AuthResult) (db : Store) (id : String)
    (answers : List JsVal) (user : User) (a : Assessment)
    (hauth : authenticated auth = some user) (hf : findUnique db id user.id = some a)
    (hq : a.questions = []) :
    countCorrect a.questions answers = 0 ∧
    jsDiv (.ofNat (countCorrect a.questions answers)) (.ofNat a.questions.length) = .nan ∧
    scoreSubmission auth db id answers = .ok (user, a, JsNumber.nan) := by
  have hc : countCorrect a.questions answers = 0 := by
    rw [hq]
    rfl
  have hs : computeQuizScore a.questions answers = JsNumber.nan := by
    rw [computeQuizScore, hc, hq]
    rfl
  refine ⟨hc, ?_, ?_⟩
  · rw [hc, hq]
    rfl
  · simp [scoreSubmission, hauth, hf, hs]

theorem empty_question_list_unguarded_witness :
    authenticated sampleOwner = some { id := "user-a" } ∧
    findUnique [emptyAssessment] "assessment-0" "user-a" = some emptyAssessment ∧
    scoreSubmission sampleOwner [emptyAssessment] "assessment-0" []
      = .ok ({ id := "user-a" }, emptyAssessment, JsNumber.nan) :=
  ⟨by decide, by decide,
   (empty_question_list_unguarded sampleOwner [emptyAssessment] "assessment-0" []
     { id := "user-a" } emptyAssessment (by decide) (by decide) rfl).2.2⟩

/-- C10: in a store with unique identifiers, for an assessment owned by someone
else than the authenticated caller, `getAssessment` returns `null`,
`submitAssessmentAnswers` and `deleteAssessment` fail, and both leave the store
exactly as it was, so the assessment is still stored unchanged. -/
theorem ownership_isolation (db : Store) (a : Assessment) (caller : User) (clerkId : String)
    (now : Nat) (answers : List JsVal)
    (hu : uniqueIds db) (ha : a ∈ db) (hother : a.userId ≠ caller.id) (hclerk : clerkId ≠ "") :
    getAssessment { user := some caller, userId := some clerkId } db a.id = .ok none ∧
    submitAssessmentAnswers { user := some caller, userId := some clerkId } db now a.id answers
      = (.error "Failed to submit assessment answers", db) ∧
    deleteAssessment { user := some caller, userId := some clerkId } db a.id
      = (.error "Failed to delete assessment", db) ∧
    a ∈ db := by
  have hauth : authenticated { user := some caller, userId := some clerkId } = some caller := by
    simp [authenticated, hclerk]
  have hf : findUnique db a.id caller.id = none := findUnique_other_owner hu ha hother
  refine ⟨?_, ?_, ?_, ha⟩
  · simp [getAssessment, hauth, hf]
  · simp [submitAssessmentAnswers, scoreSubmission, hauth, hf]
  · simp [deleteAssessment, hauth, hf]

theorem ownership_isolation_witness :
    uniqueIds sampleStoreScored ∧
    getAssessment sampleStranger sampleStoreScored "assessment-1" = .ok none ∧
    submitAssessmentAnswers sampleStranger sampleStoreScored 3 "assessment-1" [.str "B"]
      = (.error "Failed to submit assessment answers", sampleStoreScored) ∧
    deleteAssessment sampleStranger sampleStoreScored "assessment-1"
      = (.error "Failed to delete assessment", sampleStoreScored) :=
  have hu : uniqueIds sampleStoreScored := by
    unfold uniqueIds
    decide
  have h := ownership_isolation sampleStoreScored sampleScoredAssessment
    { id := "user-b" } "clerk-b" 3 [.str "B"] hu (by decide) (by decide) (by decide)
  ⟨hu, h.1, h.2.1, h.2.2.1⟩


/-! ## The retry loop -/

theorem strictEq_num (v : JsVal) (n : Int) : strictEq v (.num n) = decide (v = .num n) := by
  cases v <;> simp [strictEq]

/-- A successful call ends the loop with its text. -/
theorem retryLoop_success (service : Nat → ServiceOutcome) (attempts calls : Nat)
    (waits : List Nat) (text : String) (hlt : attempts < 3)
    (h : service calls = .success text) :
    retryLoop service attempts calls waits
      = { result := .ok (some text), calls := calls + 1, waits := waits } := by
  rw [retryLoop]
  simp [maxAttempts, hlt, h]

/-- A failure that is not an overload is rethrown at once. -/
theorem retryLoop_failure (service : Nat → ServiceOutcome) (attempts calls : Nat)
    (waits : List Nat) (error : JsError) (hlt : attempts < 3)
    (h : service calls = .failure error) (hstatus : error.status ≠ .num 503) :
    retryLoop service attempts calls waits
      = { result := .error error, calls := calls + 1, waits := waits } := by
  rw [retryLoop]
  simp [maxAttempts, hlt, h, strictEq_num, hstatus]

/-- An overload on the last attempt is rethrown without a wait. -/
theorem retryLoop_last (service : Nat → ServiceOutcome) (calls : Nat)
    (waits : List Nat) (error : JsError) (h : service calls = .failure error) :
    retryLoop service 2 calls waits
      = { result := .error error, calls := calls + 1, waits := waits } := by
  rw [retryLoop]
  simp [maxAttempts, h]

/-- An overload before the last attempt waits `2000 * attempts` milliseconds and
tries again. -/
theorem retryLoop_overload (service : Nat → ServiceOutcome) (attempts calls : Nat)
    (waits : List Nat) (error : JsError) (hlt : attempts + 1 < 3)
    (h : service calls = .failure error) (hstatus : error.status = .num 503) :
    retryLoop service attempts calls waits
      = retryLoop service (attempts + 1) (calls + 1) (waits ++ [2000 * (attempts + 1)]) := by
  rw [retryLoop]
  have hlt2 : attempts < 3 := by omega
  simp [maxAttempts, hlt, hlt2, h, strictEq_num, hstatus]

/-- From the last attempt the loop makes exactly one call. -/
theorem retryLoop_calls_two (service : Nat → ServiceOutcome) (calls : Nat) (waits : List Nat) :
    (retryLoop service 2 calls waits).calls = calls + 1 := by
  cases h : service calls with
  | success text => rw [retryLoop_success service 2 calls waits text (by omega) h]
  | failure error => rw [retryLoop_last service calls waits error h]

theorem retryLoop_calls_one (service : Nat → ServiceOutcome) (calls : Nat) (waits : List Nat) :
    calls + 1 ≤ (retryLoop service 1 calls waits).calls ∧
    (retryLoop service 1 calls waits).calls ≤ calls + 2 := by
  cases h : service calls with
  | success text =>
      rw [retryLoop_success service 1 calls waits text (by omega) h]
      exact ⟨Nat.le_refl _, by simp⟩
  | failure error =>
      by_cases hs : error.status = .num 503
      · rw [retryLoop_overload service 1 calls waits error (by omega) h hs,
          retryLoop_calls_two]
        omega
      · rw [retryLoop_failure service 1 calls waits error (by omega) h hs]
        exact ⟨Nat.le_refl _, by simp⟩

theorem retryLoop_calls_zero (service : Nat → ServiceOutcome) (calls : Nat) (waits : List Nat) :
    calls + 1 ≤ (retryLoop service 0 calls waits).calls ∧
    (retryLoop service 0 calls waits).calls ≤ calls + 3 := by
  cases h : service calls with
  | success text =>
      rw [retryLoop_success service 0 calls waits text (by omega) h]
      exact ⟨Nat.le_refl _, by simp⟩
  | failure error =>
      by_cases hs : error.status = .num 503
      · rw [retryLoop_overload service 0 calls waits error (by omega) h hs]
        have := retryLoop_calls_one service (calls + 1) (waits ++ [2000 * (0 + 1)])
        simp only [Nat.zero_add] at this ⊢
        omega
      · rw [retryLoop_failure service 0 calls waits error (by omega) h hs]
        exact ⟨Nat.le_refl _, by simp⟩


/-! ## Claims about failures of submit and delete -/

/-- Every failure of an authenticated submit call carries the one message of its
handler. -/
theorem submit_error_message (auth : AuthResult) (db : Store) (now : Nat) (id : String)
    (answers : List JsVal) (user : User) (message : String)
    (hauth : authenticated auth = some user)
    (h : (submitAssessmentAnswers auth db now id answers).1 = .error message) :
    message = "Failed to submit assessment answers" := by
  unfold submitAssessmentAnswers scoreSubmission at h
  simp only [hauth] at h
  cases hf : findUnique db id user.id with
  | none =>
      simp only [hf] at h
      injection h with h
      exact h.symm
  | some a =>
      simp only [hf, dbUpdate] at h
      cases hb : breakdown a.questions answers with
      | none =>
          simp only [hb] at h
          injection h with h
          exact h.symm
      | some entries => simp [hb] at h

/-- C11 (the code departs from the claim): a submit call for an assessment of another
owner, one for an id that does not exist, and one that fails for another cause (the
breakdown throws on a `null` question after the score was stored) all surface the
same message; the message `Assessment not found` thrown by the check never reaches
the caller. -/
theorem submit_not_found_indistinguishable :
    (submitAssessmentAnswers sampleStranger sampleStoreScored 3 "assessment-1" [.str "B"]).1
      = .error "Failed to submit assessment answers" ∧
    (submitAssessmentAnswers sampleOwner sampleStoreScored 3 "assessment-9" [.str "B"]).1
      = .error "Failed to submit assessment answers" ∧
    submitAssessmentAnswers sampleOwner [nullQuestionAssessment] 3 "assessment-2" [.str "B"]
      = (.error "Failed to submit assessment answers",
          [{ nullQuestionAssessment with updatedAt := 3 }]) ∧
    "Assessment not found" ≠ "Failed to submit assessment answers" := by
  decide

/-- C12 (the code departs from the claim): `deleteAssessment` called for an assessment
of another owner, or for an id that does not exist, fails with the generic message
and not with the specific one. -/
theorem delete_not_found_generic :
    deleteAssessment sampleStranger sampleStoreScored "assessment-1"
      = (.error "Failed to delete assessment", sampleStoreScored) ∧
    deleteAssessment sampleOwner sampleStoreScored "assessment-9"
      = (.error "Failed to delete assessment", sampleStoreScored) ∧
    "Failed to delete assessment"
      ≠ "Assessment not found or you don\x27t have permission to delete it" := by
  decide

/-- For an authenticated caller, `deleteAssessment` either deletes the caller's
record or fails with the generic message: no input makes it surface the specific one. -/
theorem delete_error_message (auth : AuthResult) (db : Store) (id : String) (user : User)
    (message : String) (hauth : authenticated auth = some user)
    (h : (deleteAssessment auth db id).1 = .error message) :
    message = "Failed to delete assessment" := by
  unfold deleteAssessment at h
  simp only [hauth] at h
  cases hf : findUnique db id user.id with
  | none =>
      simp only [hf] at h
      injection h with h
      exact h.symm
  | some a => simp [hf, dbDelete] at h

/-! ## Claims about unauthenticated callers -/

theorem authenticated_none (auth : AuthResult) (h : auth.userId = none ∨ auth.user = none) :
    authenticated auth = none := by
  obtain ⟨user, userId⟩ := auth
  rcases h with h | h
  · simp only at h
    subst h
    rfl
  · simp only at h
    subst h
    cases userId <;> rfl

/-- C13: when the identity check yields no user id or no user record,
`generateAssessment`, `submitAssessmentAnswers` and `deleteAssessment` fail with
`Authentication required`; the generation service is not called, no timer is
awaited, and the store is neither consulted (the outcome is the same for every
store state and every behaviour of its `create`) nor changed. -/
theorem unauthenticated_rejected (auth : AuthResult)
    (h : auth.userId = none ∨ auth.user = none)
    (service : Nat → ServiceOutcome) (parse : String → Option ParsedContent)
    (create : Store → CreateData → Except JsError (Assessment × Store)) (db : Store)
    (topic : String) (now : Nat) (id : String) (answers : List JsVal) :
    generateAssessment auth service parse create db topic
      = { result := .error "Authentication required", db := db, calls := 0, waits := [] } ∧
    submitAssessmentAnswers auth db now id answers = (.error "Authentication required", db) ∧
    deleteAssessment auth db id = (.error "Authentication required", db) := by
  have hauth := authenticated_none auth h
  refine ⟨?_, ?_, ?_⟩
  · simp [generateAssessment, hauth]
  · simp [submitAssessmentAnswers, scoreSubmission, hauth]
  · simp [deleteAssessment, hauth]

theorem unauthenticated_rejected_witness :
    generateAssessment sampleAnonymous (serviceText sampleFenced) sampleParse
        (storeCreate "assessment-3" 5) sampleStoreScored "history"
      = { result := .error "Authentication required", db := sampleStoreScored,
          calls := 0, waits := [] } ∧
    submitAssessmentAnswers sampleAnonymous sampleStoreScored 5 "assessment-1" [.str "B"]
      = (.error "Authentication required", sampleStoreScored) ∧
    deleteAssessment sampleAnonymous sampleStoreScored "assessment-1"
      = (.error "Authentication required", sampleStoreScored) :=
  unauthenticated_rejected sampleAnonymous (Or.inl rfl) (serviceText sampleFenced) sampleParse
    (storeCreate "assessment-3" 5) sampleStoreScored "history" 5 "assessment-1" [.str "B"]

/-- C14: when the identity check yields no user id or no user record,
`getAssessments` returns the empty list and `getAssessment` returns `null`; neither
fails, and the answer is the same for every store state. -/
theorem unauthenticated_reads_degrade (auth : AuthResult)
    (h : auth.userId = none ∨ auth.user = none) (db : Store) (id : String) :
    getAssessments auth db = .ok [] ∧ getAssessment auth db id = .ok none := by
  have hauth := authenticated_none auth h
  constructor
  · simp [getAssessments, hauth]
  · simp [getAssessment, hauth]

theorem unauthenticated_reads_degrade_witness :
    getAssessments { user := some { id := "user-a" }, userId := none } sampleStoreScored = .ok [] ∧
    getAssessment { user := some { id := "user-a" }, userId := none } sampleStoreScored
      "assessment-1" = .ok none :=
  unauthenticated_reads_degrade { user := some { id := "user-a" }, userId := none }
    (Or.inl rfl) sampleStoreScored "assessment-1"


/-! ## Claims about the retry policy -/

/-- C15: whatever the generation service does, the retry loop terminates (it is a
total function whose measure `maxAttempts - attempts` decreases) after at least one
and at most three calls to the service, and a whole `generateAssessment` request
never makes more than three. -/
theorem retryLoop_calls_bounded (service : Nat → ServiceOutcome) :
    maxAttempts = 3 ∧
    1 ≤ (retryLoop service 0 0 []).calls ∧ (retryLoop service 0 0 []).calls ≤ 3 ∧
    (∀ auth parse create db topic,
      (generateAssessment auth service parse create db topic).calls ≤ 3) := by
  have h := retryLoop_calls_zero service 0 []
  refine ⟨rfl, by omega, by omega, ?_⟩
  intro auth parse create db topic
  unfold generateAssessment
  cases authenticated auth with
  | none => simp
  | some user =>
      simp only
      split <;> simp only <;> omega

/-- C16: two overloads followed by a success give the third attempt's text after two
waits, of 2000 ms and then 4000 ms, and three calls; one overload followed by a
success gives the second attempt's text after one wait of 2000 ms. -/
theorem retryLoop_backoff (service : Nat → ServiceOutcome) (text : String) :
    (∀ e0 e1, service 0 = .failure e0 → e0.status = .num 503 →
      service 1 = .failure e1 → e1.status = .num 503 → service 2 = .success text →
      retryLoop service 0 0 []
        = { result := .ok (some text), calls := 3, waits := [2000, 4000] }) ∧
    (∀ e0, service 0 = .failure e0 → e0.status = .num 503 → service 1 = .success text →
      retryLoop service 0 0 [] = { result := .ok (some text), calls := 2, waits := [2000] }) := by
  constructor
  · intro e0 e1 h0 hs0 h1 hs1 h2
    rw [retryLoop_overload service 0 0 [] e0 (by omega) h0 hs0,
      retryLoop_overload service (0 + 1) (0 + 1) _ e1 (by omega) h1 hs1,
      retryLoop_success service (0 + 1 + 1) (0 + 1 + 1) _ text (by omega) h2]
    rfl
  · intro e0 h0 hs0 h1
    rw [retryLoop_overload service 0 0 [] e0 (by omega) h0 hs0,
      retryLoop_success service (0 + 1) (0 + 1) _ text (by omega) h1]
    rfl

theorem retryLoop_backoff_witness :
    retryLoop (serviceTwoOverloads sampleFenced) 0 0 []
      = { result := .ok (some sampleFenced), calls := 3, waits := [2000, 4000] } ∧
    retryLoop (serviceOneOverload sampleFenced) 0 0 []
      = { result := .ok (some sampleFenced), calls := 2, waits := [2000] } :=
  ⟨(retryLoop_backoff (serviceTwoOverloads sampleFenced) sampleFenced).1
      overloadError overloadError rfl rfl rfl rfl rfl,
   (retryLoop_backoff (serviceOneOverload sampleFenced) sampleFenced).2
      overloadError rfl rfl rfl⟩

/-- Three overloads in a row: three calls, two waits, and the third error is rethrown. -/
theorem retryLoop_three_overloads (service : Nat → ServiceOutcome) (e0 e1 e2 : JsError)
    (h0 : service 0 = .failure e0) (hs0 : e0.status = .num 503)
    (h1 : service 1 = .failure e1) (hs1 : e1.status = .num 503)
    (h2 : service 2 = .failure e2) :
    retryLoop service 0 0 [] = { result := .error e2, calls := 3, waits := [2000, 4000] } := by
  rw [retryLoop_overload service 0 0 [] e0 (by omega) h0 hs0,
    retryLoop_overload service (0 + 1) (0 + 1) _ e1 (by omega) h1 hs1,
    retryLoop_last service (0 + 1 + 1) _ e2 h2]
  rfl

/-- A failure of the retry loop reaches the outer handler: nothing is parsed or
persisted, and the caller receives the message chosen by the handler. -/
theorem generateAssessment_loop_error (auth : AuthResult) (user : User)
    (hauth : authenticated auth = some user) (service : Nat → ServiceOutcome)
    (parse : String → Option ParsedContent)
    (create : Store → CreateData → Except JsError (Assessment × Store)) (db : Store)
    (topic : String) (error : JsError)
    (h : (retryLoop service 0 0 []).result = .error error) :
    generateAssessment auth service parse create db topic
      = { result := .error (surfacedMessage error), db := db,
          calls := (retryLoop service 0 0 []).calls,
          waits := (retryLoop service 0 0 []).waits } := by
  simp [generateAssessment, hauth, generateTry, h]

/-- A text that does not parse reaches the outer handler as the parse failure:
nothing is persisted. -/
theorem generateAssessment_parse_error (auth : AuthResult) (user : User)
    (hauth : authenticated auth = some user) (service : Nat → ServiceOutcome)
    (parse : String → Option ParsedContent)
    (create : Store → CreateData → Except JsError (Assessment × Store)) (db : Store)
    (topic : String) (text : String)
    (h : (retryLoop service 0 0 []).result = .ok (some text))
    (hparse : parse (cleanedContent (jsTrim text)) = none) :
    generateAssessment auth service parse create db topic
      = { result := .error (surfacedMessage parseFailure), db := db,
          calls := (retryLoop service 0 0 []).calls,
          waits := (retryLoop service 0 0 []).waits } := by
  simp [generateAssessment, hauth, generateTry, h, parseAndPersist, hparse]

/-- The outcome when the text parses to a document other than `null`: the store's
`create` decides. -/
theorem generateAssessment_create (auth : AuthResult) (user : User)
    (hauth : authenticated auth = some user) (service : Nat → ServiceOutcome)
    (parse : String → Option ParsedContent)
    (create : Store → CreateData → Except JsError (Assessment × Store)) (db : Store)
    (topic : String) (text : String) (questions : Option (List (Option Question)))
    (h : (retryLoop service 0 0 []).result = .ok (some text))
    (hparse : parse (cleanedContent (jsTrim text)) = some (.document questions)) :
    generateAssessment auth service parse create db topic
      = match create db { userId := user.id, quizScore := JsNumber.ofNat 0, category := topic,
                          questions := questions } with
        | .error error =>
            { result := .error (surfacedMessage error), db := db,
              calls := (retryLoop service 0 0 []).calls,
              waits := (retryLoop service 0 0 []).waits }
        | .ok (assessment, db1) =>
            { result := .ok assessment, db := db1,
              calls := (retryLoop service 0 0 []).calls,
              waits := (retryLoop service 0 0 []).waits } := by
  simp only [generateAssessment, hauth, generateTry, h, parseAndPersist, hparse]
  cases create db { userId := user.id, quizScore := JsNumber.ofNat 0, category := topic,
                    questions := questions } with
  | error error => rfl
  | ok pair => rfl


theorem surfacedMessage_overload (error : JsError) (h : error.status = .num 503) :
    surfacedMessage error
      = "The AI service is currently overloaded. Please try again in a few moments." := by
  simp [surfacedMessage, strictEq_num, h]

/-- C17: after three overloads in a row `generateAssessment` has made three calls and
two waits (none after the third failure), has left the store unchanged, and fails
with the overload message. -/
theorem three_overloads_surface (auth : AuthResult) (user : User)
    (hauth : authenticated auth = some user) (service : Nat → ServiceOutcome)
    (e0 e1 e2 : JsError)
    (h0 : service 0 = .failure e0) (hs0 : e0.status = .num 503)
    (h1 : service 1 = .failure e1) (hs1 : e1.status = .num 503)
    (h2 : service 2 = .failure e2) (hs2 : e2.status = .num 503)
    (parse : String → Option ParsedContent)
    (create : Store → CreateData → Except JsError (Assessment × Store)) (db : Store)
    (topic : String) :
    generateAssessment auth service parse create db topic
      = { result :=
            .error "The AI service is currently overloaded. Please try again in a few moments.",
          db := db, calls := 3, waits := [2000, 4000] } := by
  have hloop := retryLoop_three_overloads service e0 e1 e2 h0 hs0 h1 hs1 h2
  rw [generateAssessment_loop_error auth user hauth service parse create db topic e2
    (by rw [hloop]), hloop, surfacedMessage_overload e2 hs2]

theorem three_overloads_surface_witness :
    authenticated sampleOwner = some { id := "user-a" } ∧
    generateAssessment sampleOwner (serviceFailing overloadError) sampleParse
        (storeCreate "assessment-3" 5) sampleStoreScored "history"
      = { result :=
            .error "The AI service is currently overloaded. Please try again in a few moments.",
          db := sampleStoreScored, calls := 3, waits := [2000, 4000] } :=
  ⟨rfl,
   three_overloads_surface sampleOwner { id := "user-a" } rfl (serviceFailing overloadError)
     overloadError overloadError overloadError rfl rfl rfl rfl rfl rfl sampleParse
     (storeCreate "assessment-3" 5) sampleStoreScored "history"⟩

/-- The loop after `k` overloads followed by a failure that is not an overload. -/
theorem retryLoop_overloads_then_failure (service : Nat → ServiceOutcome) (k : Nat) (hk : k < 3)
    (hprev : ∀ i, i < k → ∃ e, service i = .failure e ∧ e.status = .num 503)
    (error : JsError) (hfail : service k = .failure error) (hstatus : error.status ≠ .num 503) :
    retryLoop service 0 0 []
      = { result := .error error, calls := k + 1,
          waits := (List.range k).map (fun i => 2000 * (i + 1)) } := by
  interval_cases k
  · rw [retryLoop_failure service 0 0 [] error (by omega) hfail hstatus]
    rfl
  · obtain ⟨e0, h0, hs0⟩ := hprev 0 (by omega)
    rw [retryLoop_overload service 0 0 [] e0 (by omega) h0 hs0,
      retryLoop_failure service (0 + 1) (0 + 1) _ error (by omega) hfail hstatus]
    rfl
  · obtain ⟨e0, h0, hs0⟩ := hprev 0 (by omega)
    obtain ⟨e1, h1, hs1⟩ := hprev 1 (by omega)
    rw [retryLoop_overload service 0 0 [] e0 (by omega) h0 hs0,
      retryLoop_overload service (0 + 1) (0 + 1) _ e1 (by omega) h1 hs1,
      retryLoop_failure service (0 + 1 + 1) (0 + 1 + 1) _ error (by omega) hfail hstatus]
    rfl

/-- C18: when an attempt fails with an error whose status is not 503, after `k`
overloads, the loop stops at once: `k + 1` calls in all and only the `k` waits that
preceded, the store is unchanged and the caller receives the message the handler
chooses for that error; for a message that contains `API_KEY` this is the
configuration message, which differs from the overload message. -/
theorem non_overload_failure_propagates (auth : AuthResult) (user : User)
    (hauth : authenticated auth = some user) (service : Nat → ServiceOutcome)
    (k : Nat) (hk : k < 3)
    (hprev : ∀ i, i < k → ∃ e, service i = .failure e ∧ e.status = .num 503)
    (error : JsError) (hfail : service k = .failure error) (hstatus : error.status ≠ .num 503)
    (parse : String → Option ParsedContent)
    (create : Store → CreateData → Except JsError (Assessment × Store)) (db : Store)
    (topic : String) :
    retryLoop service 0 0 []
      = { result := .error error, calls := k + 1,
          waits := (List.range k).map (fun i => 2000 * (i + 1)) } ∧
    generateAssessment auth service parse create db topic
      = { result := .error (surfacedMessage error), db := db, calls := k + 1,
          waits := (List.range k).map (fun i => 2000 * (i + 1)) } ∧
    (∀ message, error.message = some message → jsIncludes message "API_KEY" = true →
      surfacedMessage error = "AI service configuration error. Please contact support.") ∧
    "AI service configuration error. Please contact support."
      ≠ "The AI service is currently overloaded. Please try again in a few moments." := by
  have hloop := retryLoop_overloads_then_failure service k hk hprev error hfail hstatus
  refine ⟨hloop, ?_, ?_, by decide⟩
  · rw [generateAssessment_loop_error auth user hauth service parse create db topic error
      (by rw [hloop]), hloop]
  · intro message hm hinc
    simp [surfacedMessage, strictEq_num, hstatus, hm, hinc]

theorem non_overload_failure_propagates_witness :
    generateAssessment sampleOwner serviceOverloadThenKey sampleParse
        (storeCreate "assessment-3" 5) sampleStoreScored "history"
      = { result := .error "AI service configuration error. Please contact support.",
          db := sampleStoreScored, calls := 2, waits := [2000] } :=
  have h := non_overload_failure_propagates sampleOwner { id := "user-a" } rfl
    serviceOverloadThenKey 1 (by decide)
    (fun i hi => ⟨overloadError, by
      have hi0 : i = 0 := by omega
      subst hi0
      exact ⟨rfl, rfl⟩⟩)
    keyError rfl (by decide) sampleParse (storeCreate "assessment-3" 5) sampleStoreScored "history"
  (h.2.2.1 "API key not valid. Please pass a valid API_KEY." rfl (by decide)) ▸ h.2.1

/-! ## Claims about parse failures -/

theorem surfacedMessage_parseFailure :
    surfacedMessage parseFailure = "Failed to process AI response. Please try again." := by
  decide

/-- C19: when the generated text, once cleaned, does not parse as JSON,
`generateAssessment` fails with the parse-failure message and the store is unchanged:
`db.assessment.create` is not reached, whatever it would have done. -/
theorem invalid_json_not_persisted (auth : AuthResult) (user : User)
    (hauth : authenticated auth = some user) (service : Nat → ServiceOutcome) (text : String)
    (hloop : (retryLoop service 0 0 []).result = .ok (some text))
    (parse : String → Option ParsedContent)
    (hparse : parse (cleanedContent (jsTrim text)) = none)
    (create : Store → CreateData → Except JsError (Assessment × Store)) (db : Store)
    (topic : String) :
    (generateAssessment auth service parse create db topic).result
      = .error "Failed to process AI response. Please try again." ∧
    (generateAssessment auth service parse create db topic).db = db := by
  rw [generateAssessment_parse_error auth user hauth service parse create db topic text
    hloop hparse, surfacedMessage_parseFailure]
  exact ⟨rfl, rfl⟩

theorem invalid_json_not_persisted_witness :
    (retryLoop (serviceText sampleGarbage) 0 0 []).result = .ok (some sampleGarbage) ∧
    sampleParse (cleanedContent (jsTrim sampleGarbage)) = none ∧
    (generateAssessment sampleOwner (serviceText sampleGarbage) sampleParse
        (storeCreate "assessment-3" 5) sampleStoreScored "history").result
      = .error "Failed to process AI response. Please try again." ∧
    (generateAssessment sampleOwner (serviceText sampleGarbage) sampleParse
        (storeCreate "assessment-3" 5) sampleStoreScored "history").db = sampleStoreScored :=
  have hloop : (retryLoop (serviceText sampleGarbage) 0 0 []).result
      = .ok (some sampleGarbage) := by
    rw [retryLoop_success (serviceText sampleGarbage) 0 0 [] sampleGarbage (by omega) rfl]
  have hparse : sampleParse (cleanedContent (jsTrim sampleGarbage)) = none := by decide
  ⟨hloop, hparse,
   invalid_json_not_persisted sampleOwner { id := "user-a" } rfl (serviceText sampleGarbage)
     sampleGarbage hloop sampleParse hparse (storeCreate "assessment-3" 5) sampleStoreScored
     "history"⟩


/-- The handler chooses the parse-failure message exactly for an error whose status
is not 503 and whose message contains `parse` and not `API_KEY`. -/
theorem surfacedMessage_eq_parse_iff (error : JsError) :
    surfacedMessage error = "Failed to process AI response. Please try again." ↔
      error.status ≠ .num 503 ∧ ∃ message, error.message = some message ∧
        jsIncludes message "API_KEY" = false ∧ jsIncludes message "parse" = true := by
  obtain ⟨status, message⟩ := error
  by_cases hs : status = .num 503
  · subst hs
    simp [surfacedMessage, strictEq]
  · cases message with
    | none => simp [surfacedMessage, strictEq_num, hs]
    | some m =>
        by_cases hk : jsIncludes m "API_KEY" = true
        · simp [surfacedMessage, strictEq_num, hs, hk]
        · by_cases hp : jsIncludes m "parse" = true
          · simp [surfacedMessage, strictEq_num, hs, hk, hp]
          · simp [surfacedMessage, strictEq_num, hs, hk, hp]

/-- C20 as stated fails: an error of the generation service whose message mentions
parsing, and an error of the store whose message mentions parsing, are both reported
with the parse-failure message although the generated text was never parsed or was
parsed successfully. -/
theorem parse_message_for_other_failures :
    generateAssessment sampleOwner (serviceFailing streamError)
        (fun _ => some (.document (some []))) (storeCreate "assessment-3" 5) [] "history"
      = { result := .error "Failed to process AI response. Please try again.",
          db := [], calls := 1, waits := [] } ∧
    sampleParse (cleanedContent (jsTrim sampleFenced)) = some (.document (some [])) ∧
    generateAssessment sampleOwner (serviceText sampleFenced) sampleParse failingCreate []
        "history"
      = { result := .error "Failed to process AI response. Please try again.",
          db := [], calls := 1, waits := [] } := by
  have hloop1 := retryLoop_failure (serviceFailing streamError) 0 0 [] streamError
    (by omega) rfl (by decide)
  have hloop2 := retryLoop_success (serviceText sampleFenced) 0 0 [] sampleFenced
    (by omega) rfl
  have hparse : sampleParse (cleanedContent (jsTrim sampleFenced))
      = some (.document (some [])) := by decide
  refine ⟨?_, hparse, ?_⟩
  · rw [generateAssessment_loop_error sampleOwner { id := "user-a" } rfl _ _ _ _ _ streamError
      (by rw [hloop1]), hloop1]
    decide
  · rw [generateAssessment_create sampleOwner { id := "user-a" } rfl _ _ _ _ _ sampleFenced
      (some []) (by rw [hloop2]) hparse, hloop2]
    decide

/-- C20 amended: `generateAssessment` surfaces the parse-failure message exactly when
the error caught by its outer handler has a status other than 503 and a message that
contains `parse` and not `API_KEY`; the failure to parse the cleaned text is such an
error, and so is any error of the generation service or of the store whose message
contains `parse`. -/
theorem parse_message_iff (auth : AuthResult) (user : User)
    (hauth : authenticated auth = some user) (service : Nat → ServiceOutcome)
    (parse : String → Option ParsedContent)
    (create : Store → CreateData → Except JsError (Assessment × Store)) (db : Store)
    (topic : String) :
    ((generateAssessment auth service parse create db topic).result
        = .error "Failed to process AI response. Please try again." ↔
      ∃ error, (generateTry user service parse create db topic).1 = .error error ∧
        error.status ≠ .num 503 ∧ ∃ message, error.message = some message ∧
          jsIncludes message "API_KEY" = false ∧ jsIncludes message "parse" = true) ∧
    (∀ text, (retryLoop service 0 0 []).result = .ok (some text) →
      parse (cleanedContent (jsTrim text)) = none →
      (generateTry user service parse create db topic).1 = .error parseFailure) ∧
    (∀ error, (retryLoop service 0 0 []).result = .error error →
      (generateTry user service parse create db topic).1 = .error error) := by
  refine ⟨?_, ?_, ?_⟩
  · unfold generateAssessment
    simp only [hauth]
    rcases hg : generateTry user service parse create db topic with ⟨r, db1⟩
    cases r with
    | error e =>
        simp only
        constructor
        · intro h
          have hmsg : surfacedMessage e = "Failed to process AI response. Please try again." := by
            injection h
          exact ⟨e, rfl, (surfacedMessage_eq_parse_iff e).mp hmsg⟩
        · rintro ⟨e2, he, hcond⟩
          have hee : e = e2 := by injection he
          subst hee
          rw [(surfacedMessage_eq_parse_iff e).mpr hcond]
    | ok a =>
        simp only
        constructor
        · intro h
          cases h
        · rintro ⟨e2, he, _⟩
          cases he
  · intro text hloop hparse
    simp [generateTry, hloop, parseAndPersist, hparse]
  · intro error hloop
    simp [generateTry, hloop]

theorem parse_message_iff_witness :
    (generateAssessment sampleOwner serviceOverloadThenKey sampleParse
        (storeCreate "assessment-3" 5) sampleStoreScored "history").result
      ≠ .error "Failed to process AI response. Please try again." ∧
    (generateTry { id := "user-a" } (serviceText sampleGarbage) sampleParse
        (storeCreate "assessment-3" 5) sampleStoreScored "history").1 = .error parseFailure :=
  have h1 := parse_message_iff sampleOwner { id := "user-a" } rfl serviceOverloadThenKey
    sampleParse (storeCreate "assessment-3" 5) sampleStoreScored "history"
  have h2 := parse_message_iff sampleOwner { id := "user-a" } rfl (serviceText sampleGarbage)
    sampleParse (storeCreate "assessment-3" 5) sampleStoreScored "history"
  have hloop1 := retryLoop_overloads_then_failure serviceOverloadThenKey 1 (by decide)
    (fun i hi => ⟨overloadError, by
      have hi0 : i = 0 := by omega
      subst hi0
      exact ⟨rfl, rfl⟩⟩)
    keyError rfl (by decide)
  have hloop2 := retryLoop_success (serviceText sampleGarbage) 0 0 [] sampleGarbage
    (by omega) rfl
  ⟨fun hres => by
      obtain ⟨e, he, _, m, hm, hkey, _⟩ := h1.1.mp hres
      have hek : (generateTry { id := "user-a" } serviceOverloadThenKey sampleParse
          (storeCreate "assessment-3" 5) sampleStoreScored "history").1 = .error keyError :=
        h1.2.2 keyError (by rw [hloop1])
      rw [hek] at he
      have hee : keyError = e := by injection he
      subst hee
      have hmm : m = "API key not valid. Please pass a valid API_KEY." := by
        have : some "API key not valid. Please pass a valid API_KEY." = some m := hm
        injection this with h
        exact h.symm
      subst hmm
      revert hkey
      decide,
   h2.2.1 sampleGarbage (by rw [hloop2]) (by decide)⟩

/-! ## The generation workflow as a store transition -/

/-- With a store that accepts the record under a fresh identifier, a
`generateAssessment` call is a transition of the store: it keeps reachable states
reachable. -/
theorem generateAssessment_reachable (auth : AuthResult) (service : Nat → ServiceOutcome)
    (parse : String → Option ParsedContent) (newId : String) (now : Nat) (db : Store)
    (topic : String) (hreach : Reachable db) (fresh : ∀ a ∈ db, a.id ≠ newId) :
    Reachable (generateAssessment auth service parse (storeCreate newId now) db topic).db := by
  unfold generateAssessment
  cases hauth : authenticated auth with
  | none => exact hreach
  | some user =>
      simp only
      unfold generateTry
      cases hloop : (retryLoop service 0 0 []).result with
      | error e => exact hreach
      | ok text =>
          cases text with
          | none => exact hreach
          | some text =>
              simp only
              unfold parseAndPersist
              cases hparse : parse (cleanedContent (jsTrim text)) with
              | none => exact hreach
              | some doc =>
                  cases doc with
                  | null => exact hreach
                  | document questions =>
                      cases questions with
                      | none => exact hreach
                      | some qs =>
                          exact Reachable.step hreach
                            (Step.generate db newId now user topic qs fresh)


/-! ## Claims about the views and the roadmap -/

/-- A correct answer whose first code unit minus 65 is an index of `options` is
displayed as that option. -/
theorem correctAnswerText_resolved (q : Question) (s : String) (opts : List JsVal) (k : Int)
    (hs : q.correctAnswer = .str s) (ho : q.options = some opts)
    (hk : answerIndex s = some k) (h0 : 0 ≤ k) (hlt : k < opts.length) :
    correctAnswerText q = some (jsIndex opts k.toNat) := by
  obtain ⟨qq, options, ca, ex⟩ := q
  simp only at hs ho
  subst hs ho
  have hne : s ≠ "" := by
    intro he
    subst he
    simp [answerIndex, charCodeAt0] at hk
  have ht : (JsVal.str s).toBoolean = true := by simp [JsVal.toBoolean, hne]
  simp [correctAnswerText, ht, hk, h0, hlt]

theorem answerIndex_optionLabel (i : Nat) (hi : i < 26) :
    answerIndex (optionLabel i) = some (i : Int) := by
  interval_cases i <;> rfl

/-- C30: for an option index below the number of options (at most 26), the label the
quiz view assigns, `String.fromCharCode(65 + i)`, is converted back to `i` by the
server, so a question whose correct answer is that label displays `options[i]`. -/
theorem label_round_trip (q : Question) (opts : List JsVal) (i : Nat)
    (hopts : q.options = some opts) (hi : i < opts.length) (hlen : opts.length ≤ 26)
    (hlabel : q.correctAnswer = .str (optionLabel i)) :
    answerIndex (optionLabel i) = some (i : Int) ∧
    correctAnswerText q = some (jsIndex opts i) := by
  have hidx := answerIndex_optionLabel i (by omega)
  refine ⟨hidx, ?_⟩
  have h := correctAnswerText_resolved q (optionLabel i) opts (i : Int) hlabel hopts hidx
    (by omega) (by exact_mod_cast hi)
  simpa using h

theorem label_round_trip_witness :
    optionLabel 2 = "C" ∧
    correctAnswerText { sampleQuestion with correctAnswer := .str (optionLabel 2) }
      = some (.str "Berlin") :=
  ⟨rfl,
   (label_round_trip { sampleQuestion with correctAnswer := .str (optionLabel 2) }
     [.str "Paris", .str "London", .str "Berlin", .str "Madrid"] 2 rfl (by decide) (by decide)
     rfl).2⟩

/-- C29 (the code departs from the claim): an option that starts with its label and a
period loses three characters whatever the third one is, so `A.Paris` is displayed as
`aris` and `B.London` as `ondon`; only when a space follows the period is the answer
text kept whole. -/
theorem displayOption_drops_answer_character :
    displayOption 0 "A.Paris" = "aris" ∧
    displayOption 1 "B.London" = "ondon" ∧
    displayOption 0 "A. Paris" = "Paris" ∧
    displayOption 1 "London" = "London" := by
  decide

/-- An option that does not start with its label and a period is displayed unchanged. -/
theorem displayOption_unchanged (index : Nat) (option : String)
    (h : startsWith ((optionLabel index).data ++ ".".data) option.data = false) :
    displayOption index option = option := by
  simp [displayOption, h]

/-- C27 (the code departs from the claim): with two assessments of the caller, the
list that `getAssessments` returns starts with the one created last, and the
dashboard's `latestAssessment`, the last element of that list, is the one created
first. -/
theorem latestAssessment_is_oldest :
    getAssessments sampleOwner [sampleScoredAssessment, laterAssessment]
      = .ok [laterAssessment, sampleScoredAssessment] ∧
    latestAssessment [laterAssessment, sampleScoredAssessment] = some sampleScoredAssessment ∧
    sampleScoredAssessment.createdAt < laterAssessment.createdAt := by
  decide

/-- C28: for an authenticated caller, when the generation call fails or the cleaned
text does not parse, `createRoadmap` returns a default roadmap: its title is
`Career Roadmap for` followed by the career field, it has exactly five steps with
ids 1 to 5 in that order, each pending; and the default of a parse failure equals
the default of a generation failure. -/
theorem createRoadmap_fallback {α : Type} (auth : AuthResult) (user : User)
    (hauth : authenticated auth = some user) (outcome : ServiceOutcome)
    (parse : String → Option α) (careerField : String)
    (h : (∃ error, outcome = .failure error) ∨
      (∃ text, outcome = .success text ∧ parse (cleanedContent (jsTrim text)) = none)) :
    ∃ roadmap : Roadmap,
      createRoadmap auth outcome parse careerField = .ok (.fallback roadmap) ∧
      roadmap.title = "Career Roadmap for " ++ careerField ∧
      roadmap.steps.map (fun step => step.id) = [1, 2, 3, 4, 5] ∧
      (∀ step ∈ roadmap.steps, step.status = "pending") ∧
      parseFallbackRoadmap careerField = generationFallbackRoadmap careerField := by
  have hsteps : ∀ step ∈ (parseFallbackRoadmap careerField).steps, step.status = "pending" := by
    intro step hstep
    simp [parseFallbackRoadmap] at hstep
    rcases hstep with h | h | h | h | h <;> rw [h]
  rcases h with ⟨error, he⟩ | ⟨text, ht, hp⟩
  · refine ⟨generationFallbackRoadmap careerField, ?_, rfl, rfl, hsteps, rfl⟩
    simp [createRoadmap, hauth, he]
  · refine ⟨parseFallbackRoadmap careerField, ?_, rfl, rfl, hsteps, rfl⟩
    simp [createRoadmap, hauth, ht, hp]

theorem createRoadmap_fallback_witness :
    authenticated sampleOwner = some { id := "user-a" } ∧
    sampleParse (cleanedContent (jsTrim sampleGarbage)) = none ∧
    ∃ roadmap : Roadmap,
      createRoadmap sampleOwner (.success sampleGarbage) sampleParse "nursing"
        = .ok (.fallback roadmap) ∧
      roadmap.title = "Career Roadmap for " ++ "nursing" ∧
      roadmap.steps.map (fun step => step.id) = [1, 2, 3, 4, 5] ∧
      (∀ step ∈ roadmap.steps, step.status = "pending") ∧
      parseFallbackRoadmap "nursing" = generationFallbackRoadmap "nursing" :=
  ⟨rfl, by decide,
   createRoadmap_fallback sampleOwner { id := "user-a" } rfl (.success sampleGarbage)
     sampleParse "nursing" (Or.inr ⟨sampleGarbage, rfl, by decide⟩)⟩

/-! ## Claims about the prompt -/

set_option maxRecDepth 20000

/-- C25 (the code departs from the claim): a profile whose experience is 0 years is
present, yet the prompt shows the placeholder `intermediate` in its place and nowhere
`0 years`. -/
theorem experience_zero_replaced :
    beginnerProfile.experience = some 0 ∧
    userExperience beginnerProfile = "intermediate" ∧
    jsIncludes (assessmentPrompt beginnerProfile "SQL joins" "Medium" 10)
      "professional with intermediate years of experience" = true ∧
    jsIncludes (assessmentPrompt beginnerProfile "SQL joins" "Medium" 10)
      "Experience: intermediate years" = true ∧
    jsIncludes (assessmentPrompt beginnerProfile "SQL joins" "Medium" 10) "0 years" = false := by
  decide

/-- The values the prompt shows for the profile: the own value of a non-empty
industry, of a non-zero experience and of every skills list, and the placeholder for
an absent attribute. -/
theorem prompt_profile_values (profile : UserProfile) :
    (profile.industry = none → userIndustry profile = "technology") ∧
    (∀ industry, profile.industry = some industry → industry ≠ "" →
      userIndustry profile = industry) ∧
    (profile.experience = none → userExperience profile = "intermediate") ∧
    (∀ years : Int, profile.experience = some years → years ≠ 0 →
      userExperience profile = toString years) ∧
    (profile.skills = none → userSkills profile = "general skills") ∧
    (∀ skills, profile.skills = some skills → userSkills profile = ", ".intercalate skills) ∧
    (∀ topic difficulty questionCount,
      assessmentPrompt profile topic difficulty questionCount
        = promptTemplate (userIndustry profile) (userExperience profile) (userSkills profile)
            topic difficulty (toString questionCount)) := by
  obtain ⟨industry, experience, skills⟩ := profile
  refine ⟨?_, ?_, ?_, ?_, ?_, ?_, fun _ _ _ => rfl⟩
  · intro h
    simp only at h
    subst h
    rfl
  · intro i h hne
    simp only at h
    subst h
    simp [userIndustry, hne]
  · intro h
    simp only at h
    subst h
    rfl
  · intro n h hne
    simp only at h
    subst h
    simp [userExperience, hne]
  · intro h
    simp only at h
    subst h
    rfl
  · intro l h
    simp only at h
    subst h
    rfl


/-! ## Claims about repeated submissions -/

/-- The outcome of a submission by an authenticated caller for an assessment the
lookup finds. -/
theorem submit_found (auth : AuthResult) (user : User) (db : Store) (now : Nat) (id : String)
    (answers : List JsVal) (a : Assessment) (hauth : authenticated auth = some user)
    (hf : findUnique db id user.id = some a) :
    submitAssessmentAnswers auth db now id answers
      = (match breakdown a.questions answers with
         | none => .error "Failed to submit assessment answers"
         | some entries =>
             .ok { id := a.id,
                   quizScore := computeQuizScore a.questions answers,
                   category := a.category,
                   createdAt := a.createdAt,
                   updatedAt := now,
                   questions := entries,
                   improvementTip :=
                     "Review the questions you answered incorrectly and study the explanations provided." },
         db.map (fun x => if ownedBy id user.id x
           then withScore (computeQuizScore a.questions answers) now x else x)) := by
  cases hb : breakdown a.questions answers <;>
    simp [submitAssessmentAnswers, scoreSubmission, hauth, hf, dbUpdate, hb, withScore]

/-- The lookup after an update finds the updated record. -/
theorem findUnique_after_update (db : Store) (id userId : String) (score : JsNumber) (now : Nat) :
    findUnique (db.map (fun x => if ownedBy id userId x then withScore score now x else x))
        id userId
      = (findUnique db id userId).map (withScore score now) := by
  induction db with
  | nil => rfl
  | cons x rest ih =>
      simp only [findUnique] at ih ⊢
      by_cases hx : ownedBy id userId x = true
      · have hx2 : ownedBy id userId (withScore score now x) = true := by
          simpa [ownedBy, withScore] using hx
        simp [List.find?, hx, hx2]
      · simp only [Bool.not_eq_true] at hx
        simp [List.find?, hx, ih]

/-- Last write wins: a second submission gives the result and the store state of
that submission alone, whatever the first one was. -/
theorem submit_last_write_wins (auth : AuthResult) (db : Store) (t1 t2 : Nat) (id : String)
    (a1 a2 : List JsVal) :
    submitAssessmentAnswers auth (submitAssessmentAnswers auth db t1 id a1).2 t2 id a2
      = submitAssessmentAnswers auth db t2 id a2 := by
  cases hauth : authenticated auth with
  | none => simp [submitAssessmentAnswers, scoreSubmission, hauth]
  | some user =>
      cases hf : findUnique db id user.id with
      | none =>
          have h1 : (submitAssessmentAnswers auth db t1 id a1).2 = db := by
            simp [submitAssessmentAnswers, scoreSubmission, hauth, hf]
          rw [h1]
      | some a =>
          have hf2 := findUnique_after_update db id user.id (computeQuizScore a.questions a1) t1
          rw [hf] at hf2
          rw [submit_found auth user db t1 id a1 a hauth hf]
          rw [submit_found auth user _ t2 id a2 _ hauth hf2]
          rw [submit_found auth user db t2 id a2 a hauth hf]
          simp only [Option.map, withScore, List.map_map]
          congr 1
          apply List.map_congr_left
          intro x _
          by_cases hx : ownedBy id user.id x = true
          · have hx2 : ownedBy id user.id
                { x with quizScore := computeQuizScore a.questions a1, updatedAt := t1 } = true := by
              simpa [ownedBy] using hx
            simp [hx, hx2]
          · simp only [Bool.not_eq_true] at hx
            simp [hx]

theorem mapM_option_some {α β : Type} (f : α → Option β) (l : List α)
    (h : ∀ x ∈ l, ∃ y, f x = some y) : ∃ ys, l.mapM f = some ys := by
  induction l with
  | nil => exact ⟨[], rfl⟩
  | cons x rest ih =>
      obtain ⟨y, hy⟩ := h x (List.mem_cons_self x rest)
      obtain ⟨ys, hys⟩ := ih (fun z hz => h z (List.mem_cons_of_mem x hz))
      refine ⟨y :: ys, ?_⟩
      rw [List.mapM_cons, hy, hys]
      rfl

/-- The result of a submission can be built for every answers sequence when the
stored questions have no `null` element and every correct answer next to options is
a string or falsy. -/
theorem breakdown_defined (questions : List (Option Question)) (answers : List JsVal)
    (h : breakdownDefined questions) : ∃ entries, breakdown questions answers = some entries := by
  apply mapM_option_some
  intro index hindex
  have hlt : index < questions.length := List.mem_range.mp hindex
  have hmem : questions.getD index none ∈ questions := by
    rw [List.getD_eq_getElem questions none hlt]
    exact List.getElem_mem hlt
  obtain ⟨q, hq, hshape⟩ := h _ hmem
  rw [hq]
  obtain ⟨qq, options, ca, ex⟩ := q
  simp only at hshape
  rcases hshape with ho | hc | ⟨s, hs⟩
  · subst ho
    simp [breakdownEntry, correctAnswerText]
  · cases options with
    | none => simp [breakdownEntry, correctAnswerText]
    | some opts => simp [breakdownEntry, correctAnswerText, hc]
  · subst hs
    cases options with
    | none => simp [breakdownEntry, correctAnswerText]
    | some opts =>
        have hc : ∃ text, correctAnswerText
            { question := qq, options := some opts, correctAnswer := .str s,
              explanation := ex } = some text := by
          simp only [correctAnswerText]
          by_cases hb : (JsVal.str s).toBoolean = true
          · rw [if_pos hb]
            cases answerIndex s with
            | none => exact ⟨_, rfl⟩
            | some k =>
                by_cases hk : 0 ≤ k ∧ k < opts.length
                · exact ⟨_, if_pos hk⟩
                · exact ⟨_, if_neg hk⟩
          · rw [if_neg hb]
            exact ⟨_, rfl⟩
        obtain ⟨text, ht⟩ := hc
        simp [breakdownEntry, ht]

/-- Both of two successive submissions succeed when the caller is authenticated, the
assessment is found and its questions are of the shape `breakdownDefined`. -/
theorem submit_twice_succeeds (auth : AuthResult) (user : User) (db : Store) (t1 t2 : Nat)
    (id : String) (a1 a2 : List JsVal) (a : Assessment)
    (hauth : authenticated auth = some user) (hf : findUnique db id user.id = some a)
    (hshape : breakdownDefined a.questions) :
    (∃ r1, (submitAssessmentAnswers auth db t1 id a1).1 = .ok r1) ∧
    (∃ r2, (submitAssessmentAnswers auth (submitAssessmentAnswers auth db t1 id a1).2
      t2 id a2).1 = .ok r2 ∧ r2.quizScore = computeQuizScore a.questions a2) := by
  obtain ⟨e1, he1⟩ := breakdown_defined a.questions a1 hshape
  obtain ⟨e2, he2⟩ := breakdown_defined a.questions a2 hshape
  constructor
  · rw [submit_found auth user db t1 id a1 a hauth hf, he1]
    exact ⟨_, rfl⟩
  · rw [submit_last_write_wins, submit_found auth user db t2 id a2 a hauth hf, he2]
    exact ⟨_, rfl, rfl⟩

/-- C26 (the code departs from the claim): for an owned assessment whose one-element
question list holds `null`, or a question with a numeric correct answer, the
submission stores the score and then fails while building its result, so neither
of two submissions succeeds. -/
theorem submit_fails_after_storing_score :
    nullQuestionAssessment.questions ≠ [] ∧
    submitAssessmentAnswers sampleOwner [nullQuestionAssessment] 5 "assessment-2" [.str "A"]
      = (.error "Failed to submit assessment answers",
         [withScore (computeQuizScore [none] [.str "A"]) 5 nullQuestionAssessment]) ∧
    numericAnswerAssessment.questions ≠ [] ∧
    submitAssessmentAnswers sampleOwner [numericAnswerAssessment] 5 "assessment-4" [.str "A"]
      = (.error "Failed to submit assessment answers",
         [withScore (computeQuizScore [some numericAnswerQuestion] [.str "A"]) 5
           numericAnswerAssessment]) := by
  decide


/-! ## Claims about the handler and the parse stage -/

theorem retryLoop_error_two (service : Nat → ServiceOutcome) (calls : Nat) (waits : List Nat)
    (error : JsError) (h : (retryLoop service 2 calls waits).result = .error error) :
    ∃ k, service k = .failure error := by
  cases hs : service calls with
  | success text =>
      rw [retryLoop_success service 2 calls waits text (by omega) hs] at h
      simp at h
  | failure e =>
      rw [retryLoop_last service calls waits e hs] at h
      simp only [Except.error.injEq] at h
      exact ⟨calls, by rw [hs, h]⟩

theorem retryLoop_error_one (service : Nat → ServiceOutcome) (calls : Nat) (waits : List Nat)
    (error : JsError) (h : (retryLoop service 1 calls waits).result = .error error) :
    ∃ k, service k = .failure error := by
  cases hs : service calls with
  | success text =>
      rw [retryLoop_success service 1 calls waits text (by omega) hs] at h
      simp at h
  | failure e =>
      by_cases hst : e.status = .num 503
      · rw [retryLoop_overload service 1 calls waits e (by omega) hs hst] at h
        exact retryLoop_error_two service _ _ error h
      · rw [retryLoop_failure service 1 calls waits e (by omega) hs hst] at h
        simp only [Except.error.injEq] at h
        exact ⟨calls, by rw [hs, h]⟩

/-- An error rethrown by the retry loop is an error of one of the service calls. -/
theorem retryLoop_error_source (service : Nat → ServiceOutcome) (error : JsError)
    (h : (retryLoop service 0 0 []).result = .error error) :
    ∃ k, service k = .failure error := by
  cases hs : service 0 with
  | success text =>
      rw [retryLoop_success service 0 0 [] text (by omega) hs] at h
      simp at h
  | failure e =>
      by_cases hst : e.status = .num 503
      · rw [retryLoop_overload service 0 0 [] e (by omega) hs hst] at h
        exact retryLoop_error_one service _ _ error h
      · rw [retryLoop_failure service 0 0 [] e (by omega) hs hst] at h
        simp only [Except.error.injEq] at h
        exact ⟨0, by rw [hs, h]⟩

/-- The handler chooses one of its four messages for an overload and for every error
that carries a string message. -/
theorem surfacedMessage_fixed (error : JsError)
    (h : error.status = .num 503 ∨ error.message ≠ none) :
    surfacedMessage error ∈ fixedMessages := by
  by_cases hst : error.status = .num 503
  · rw [surfacedMessage_overload error hst]
    simp [fixedMessages]
  · have hm : error.message ≠ none := h.resolve_left hst
    obtain ⟨status, message⟩ := error
    cases message with
    | none => exact absurd rfl hm
    | some m =>
        simp only at hst
        simp only [surfacedMessage, strictEq_num, hst, decide_False, Bool.false_eq_true, if_false]
        split_ifs <;> simp [fixedMessages]

/-- The error the outer handler catches comes from a service call, from the store, or
is one of the errors raised by the function's own statements, which carry a message. -/
theorem generateTry_error_source (user : User) (service : Nat → ServiceOutcome)
    (parse : String → Option ParsedContent)
    (create : Store → CreateData → Except JsError (Assessment × Store)) (db : Store)
    (topic : String) (error : JsError)
    (h : (generateTry user service parse create db topic).1 = .error error) :
    (∃ k, service k = .failure error) ∨ (∃ data, create db data = .error error) ∨
      error.message ≠ none := by
  unfold generateTry at h
  cases hr : (retryLoop service 0 0 []).result with
  | error e =>
      rw [hr] at h
      simp only [Except.error.injEq] at h
      subst h
      exact Or.inl (retryLoop_error_source service e hr)
  | ok text? =>
      rw [hr] at h
      cases text? with
      | none =>
          simp only [Except.error.injEq] at h
          subst h
          exact Or.inr (Or.inr (by simp [cannotRead]))
      | some text =>
          simp only [parseAndPersist] at h
          cases hp : parse (cleanedContent (jsTrim text)) with
          | none =>
              rw [hp] at h
              simp only [Except.error.injEq] at h
              subst h
              exact Or.inr (Or.inr (by simp [parseFailure]))
          | some doc =>
              rw [hp] at h
              cases doc with
              | null =>
                  simp only [Except.error.injEq] at h
                  subst h
                  exact Or.inr (Or.inr (by simp [cannotRead]))
              | document questions =>
                  simp only at h
                  cases hc : create db { userId := user.id, quizScore := JsNumber.ofNat 0,
                                         category := topic, questions := questions } with
                  | error e =>
                      rw [hc] at h
                      simp only [Except.error.injEq] at h
                      subst h
                      exact Or.inr (Or.inl ⟨_, hc⟩)
                  | ok pair =>
                      rw [hc] at h
                      simp at h

/-- C24, counterexample: a generation service that throws an object with status 500
and no message makes the handler itself throw; the caller receives the text of that
`TypeError`, which is none of the four fixed messages. -/
theorem raw_error_surfaced :
    (generateAssessment sampleOwner (serviceFailing bareError) sampleParse
        (storeCreate "assessment-3" 9) sampleStore "history").result
      = .error "Cannot read properties of undefined (reading \x27includes\x27)" ∧
    "Cannot read properties of undefined (reading \x27includes\x27)" ∉ fixedMessages := by
  have hloop := retryLoop_failure (serviceFailing bareError) 0 0 [] bareError (by omega) rfl
    (by decide)
  rw [generateAssessment_loop_error sampleOwner { id := "user-a" } rfl (serviceFailing bareError)
    sampleParse (storeCreate "assessment-3" 9) sampleStore "history" bareError
    (by rw [hloop])]
  decide

/-- C24, amended: when every error thrown by the generation service and by the store
carries a string message or has status 503, every failure of an authenticated
`generateAssessment` call carries one of the four fixed messages. -/
theorem surfaced_message_fixed (auth : AuthResult) (user : User)
    (hauth : authenticated auth = some user) (service : Nat → ServiceOutcome)
    (parse : String → Option ParsedContent)
    (create : Store → CreateData → Except JsError (Assessment × Store)) (db : Store)
    (topic : String)
    (hservice : ∀ k error, service k = .failure error →
      error.status = .num 503 ∨ error.message ≠ none)
    (hcreate : ∀ data error, create db data = .error error →
      error.status = .num 503 ∨ error.message ≠ none)
    (message : String)
    (h : (generateAssessment auth service parse create db topic).result = .error message) :
    message ∈ fixedMessages := by
  unfold generateAssessment at h
  rw [hauth] at h
  simp only at h
  cases hg : generateTry user service parse create db topic with
  | mk result db1 =>
      rw [hg] at h
      cases result with
      | ok assessment => simp at h
      | error error =>
          simp only [Except.error.injEq] at h
          subst h
          apply surfacedMessage_fixed
          have hsrc := generateTry_error_source user service parse create db topic error
            (by rw [hg])
          rcases hsrc with ⟨k, hk⟩ | ⟨data, hd⟩ | hm
          · exact hservice k error hk
          · exact hcreate data error hd
          · exact Or.inr hm

theorem surfaced_message_fixed_witness :
    (generateAssessment sampleOwner (serviceFailing keyError) sampleParse
        (storeCreate "assessment-3" 9) sampleStore "history").result
      = .error "AI service configuration error. Please contact support." ∧
    "AI service configuration error. Please contact support." ∈ fixedMessages :=
  have hloop := retryLoop_failure (serviceFailing keyError) 0 0 [] keyError (by omega) rfl
    (by decide)
  have hgen := generateAssessment_loop_error sampleOwner { id := "user-a" } rfl
    (serviceFailing keyError) sampleParse (storeCreate "assessment-3" 9) sampleStore "history"
    keyError (by rw [hloop])
  have hres : (generateAssessment sampleOwner (serviceFailing keyError) sampleParse
        (storeCreate "assessment-3" 9) sampleStore "history").result
      = .error "AI service configuration error. Please contact support." := by
    rw [hgen]
    decide
  ⟨hres,
   surfaced_message_fixed sampleOwner { id := "user-a" } rfl (serviceFailing keyError)
     sampleParse (storeCreate "assessment-3" 9) sampleStore "history"
     (fun k error hk => by
        have he : error = keyError := by
          simp only [serviceFailing, ServiceOutcome.failure.injEq] at hk
          exact hk.symm
        subst he
        exact Or.inr (by decide))
     (fun data error hd => by
        right
        unfold storeCreate at hd
        cases hq : data.questions with
        | none =>
            rw [hq] at hd
            simp only [Except.error.injEq] at hd
            subst hd
            simp
        | some questions =>
            rw [hq] at hd
            simp at hd)
     _ hres⟩

/-- C21, counterexample: the generated text `null` is a valid JSON document, yet
nothing is handed to the store: reading `questions` of `null` throws, the request
fails with the generic message and the store is unchanged. -/
theorem null_document_not_persisted :
    sampleParse (cleanedContent (jsTrim "null")) = some .null ∧
    generateAssessment sampleOwner (serviceText "null") sampleParse
        (storeCreate "assessment-3" 9) sampleStore "history"
      = { result := .error "Failed to generate assessment. Please try again.",
          db := sampleStore, calls := 1, waits := [] } := by
  have hloop := retryLoop_success (serviceText "null") 0 0 [] "null" (by omega) rfl
  refine ⟨by decide, ?_⟩
  simp only [generateAssessment, generateTry, hloop, parseAndPersist]
  decide

/-- C21, amended: for a generated text whose cleaned form parses to a document other
than `null`, the parse stage raises no failure: `db.assessment.create` is called with
the `questions` value the document exposes, absent or malformed as it may be, and its
outcome is the outcome of the request; for the document `null` the request fails
with the generic message and the store is unchanged. -/
theorem parsed_document_passed_through (auth : AuthResult) (user : User)
    (hauth : authenticated auth = some user) (service : Nat → ServiceOutcome)
    (parse : String → Option ParsedContent)
    (create : Store → CreateData → Except JsError (Assessment × Store)) (db : Store)
    (topic : String) (text : String) (document : ParsedContent)
    (h : (retryLoop service 0 0 []).result = .ok (some text))
    (hparse : parse (cleanedContent (jsTrim text)) = some document) :
    (∀ questions, document = .document questions →
      generateAssessment auth service parse create db topic
        = match create db { userId := user.id, quizScore := JsNumber.ofNat 0,
                            category := topic, questions := questions } with
          | .error error =>
              { result := .error (surfacedMessage error), db := db,
                calls := (retryLoop service 0 0 []).calls,
                waits := (retryLoop service 0 0 []).waits }
          | .ok (assessment, db1) =>
              { result := .ok assessment, db := db1,
                calls := (retryLoop service 0 0 []).calls,
                waits := (retryLoop service 0 0 []).waits }) ∧
    (document = .null →
      generateAssessment auth service parse create db topic
        = { result := .error "Failed to generate assessment. Please try again.", db := db,
            calls := (retryLoop service 0 0 []).calls,
            waits := (retryLoop service 0 0 []).waits }) := by
  constructor
  · intro questions hd
    subst hd
    exact generateAssessment_create auth user hauth service parse create db topic text
      questions h hparse
  · intro hd
    subst hd
    simp only [generateAssessment, hauth, generateTry, h, parseAndPersist, hparse]
    have hm : surfacedMessage (cannotRead "null" "questions")
        = "Failed to generate assessment. Please try again." := by decide
    rw [hm]

theorem parsed_document_passed_through_witness :
    generateAssessment sampleOwner (serviceText "\x7b\x7d") sampleParse
        (storeCreate "assessment-3" 9) sampleStore "history"
      = { result := .error "Failed to generate assessment. Please try again.",
          db := sampleStore, calls := 1, waits := [] } :=
  have hloop := retryLoop_success (serviceText "\x7b\x7d") 0 0 [] "\x7b\x7d" (by omega) rfl
  have hgen := (parsed_document_passed_through sampleOwner { id := "user-a" } rfl
    (serviceText "\x7b\x7d") sampleParse (storeCreate "assessment-3" 9) sampleStore "history"
    "\x7b\x7d" (.document none) (by rw [hloop]) (by decide)).1 none rfl
  by
    rw [hgen, hloop]
    decide

/-! ## Cleaning of the generated text -/

theorem startsWith_iff (pattern text : List Char) :
    startsWith pattern text = true ↔ pattern <+: text := by
  induction pattern generalizing text with
  | nil => simp [startsWith]
  | cons p ps ih =>
      cases text with
      | nil => simp [startsWith]
      | cons c cs => simp [startsWith, ih, List.cons_prefix_cons]

theorem includesFrom_iff (pattern text : List Char) :
    includesFrom pattern text = true ↔ pattern <:+: text := by
  induction text with
  | nil => simp [includesFrom, List.isEmpty_iff]
  | cons c cs ih =>
      simp [includesFrom, ih, startsWith_iff, List.infix_cons_iff]

theorem fence_data : "```".data = [backtick, backtick, backtick] := by decide

theorem fenceJson_data : "```json".data = [backtick, backtick, backtick, 'j', 's', 'o', 'n'] := by
  decide

theorem fence_ne_nil : [backtick, backtick, backtick] ≠ ([] : List Char) := by simp

/-- A text without backticks contains no code fence. -/
theorem includesFrom_fence_of_no_backtick (text : List Char) (h : ∀ c ∈ text, c ≠ backtick) :
    includesFrom [backtick, backtick, backtick] text = false := by
  rw [Bool.eq_false_iff]
  intro hi
  rw [includesFrom_iff] at hi
  exact h backtick (hi.subset (by simp)) rfl

/-- A text that holds no match of the pattern is left as it is. -/
theorem removeAllFrom_of_not_includes (pattern text : List Char)
    (h : includesFrom pattern text = false) : removeAllFrom pattern 0 text = text := by
  induction text with
  | nil => rfl
  | cons c cs ih =>
      simp only [includesFrom, Bool.or_eq_false_iff] at h
      simp [removeAllFrom, h.1, ih h.2]

/-- A text without the fence holds no fence followed by `json` either. -/
theorem includesFrom_fenceJson (text : List Char)
    (h : includesFrom [backtick, backtick, backtick] text = false) :
    includesFrom [backtick, backtick, backtick, 'j', 's', 'o', 'n'] text = false := by
  rw [Bool.eq_false_iff] at h ⊢
  intro hi
  apply h
  rw [includesFrom_iff] at hi ⊢
  exact List.IsInfix.trans
    (List.IsPrefix.isInfix (⟨['j', 's', 'o', 'n'], rfl⟩ :
      [backtick, backtick, backtick] <+: [backtick, backtick, backtick, 'j', 's', 'o', 'n'])) hi

theorem removeAllFrom_match (pattern : List Char) (c : Char) (cs : List Char)
    (h : startsWith pattern (c :: cs) = true) :
    removeAllFrom pattern 0 (c :: cs) = removeAllFrom pattern (pattern.length - 1) cs := by
  rw [removeAllFrom, if_pos h]

theorem removeAllFrom_keep (pattern : List Char) (c : Char) (cs : List Char)
    (h : startsWith pattern (c :: cs) = false) :
    removeAllFrom pattern 0 (c :: cs) = c :: removeAllFrom pattern 0 cs := by
  rw [removeAllFrom, if_neg (by rw [h]; simp)]

theorem removeFence_head (text : List Char)
    (h : [backtick] <+: removeAllFrom [backtick, backtick, backtick] 0 text) :
    [backtick] <+: text := by
  cases text with
  | nil => simp [removeAllFrom] at h
  | cons c cs =>
      cases hs : startsWith [backtick, backtick, backtick] (c :: cs) with
      | true =>
          rw [startsWith_iff] at hs
          exact List.IsPrefix.trans ⟨[backtick, backtick], rfl⟩ hs
      | false =>
          rw [removeAllFrom_keep _ c cs hs, List.cons_prefix_cons] at h
          rw [List.cons_prefix_cons]
          exact ⟨h.1, List.nil_prefix⟩

theorem removeFence_head_two (text : List Char)
    (h : [backtick, backtick] <+: removeAllFrom [backtick, backtick, backtick] 0 text) :
    [backtick, backtick] <+: text := by
  cases text with
  | nil => simp [removeAllFrom] at h
  | cons c cs =>
      cases hs : startsWith [backtick, backtick, backtick] (c :: cs) with
      | true =>
          rw [startsWith_iff] at hs
          exact List.IsPrefix.trans ⟨[backtick], rfl⟩ hs
      | false =>
          rw [removeAllFrom_keep _ c cs hs, List.cons_prefix_cons] at h
          rw [List.cons_prefix_cons]
          exact ⟨h.1, removeFence_head cs h.2⟩

/-- Removing every code fence, scanning from the left, leaves no code fence. -/
theorem removeFence_no_fence (skip : Nat) (text : List Char) :
    includesFrom [backtick, backtick, backtick]
      (removeAllFrom [backtick, backtick, backtick] skip text) = false := by
  induction text generalizing skip with
  | nil => cases skip <;> rfl
  | cons c cs ih =>
      cases skip with
      | succ k =>
          rw [removeAllFrom]
          exact ih k
      | zero =>
          cases hs : startsWith [backtick, backtick, backtick] (c :: cs) with
          | true =>
              rw [removeAllFrom_match _ c cs hs]
              exact ih _
          | false =>
              rw [removeAllFrom_keep _ c cs hs, includesFrom, ih 0, Bool.or_false,
                Bool.eq_false_iff]
              intro hst
              rw [startsWith_iff, List.cons_prefix_cons] at hst
              have h3 := removeFence_head_two cs hst.2
              have h4 : startsWith [backtick, backtick, backtick] (c :: cs) = true := by
                rw [startsWith_iff, List.cons_prefix_cons]
                exact ⟨hst.1, h3⟩
              rw [hs] at h4
              exact Bool.false_ne_true h4

/-- The trimmed text is a contiguous part of the text. -/
theorem jsTrim_part (s : String) : (jsTrim s).data <:+: s.data := by
  simp only [jsTrim]
  have h1 : (s.data.dropWhile isJsWhitespace).reverse.dropWhile isJsWhitespace
      <:+ (s.data.dropWhile isJsWhitespace).reverse := List.dropWhile_suffix _
  have h2 : ((s.data.dropWhile isJsWhitespace).reverse.dropWhile isJsWhitespace).reverse
      <+: s.data.dropWhile isJsWhitespace := by
    rw [← List.reverse_suffix, List.reverse_reverse]
    exact h1
  exact List.IsInfix.trans h2.isInfix (List.dropWhile_suffix _).isInfix

theorem dropWhile_self_of_initial (p : Char → Bool) (l1 l2 : List Char) (hp : l2 <+: l1)
    (h : l1.dropWhile p = l1) : l2.dropWhile p = l2 := by
  cases l2 with
  | nil => rfl
  | cons a t =>
      obtain ⟨r, hr⟩ := hp
      subst hr
      by_cases ha : p a = true
      · exfalso
        have hsuf : (a :: t ++ r).dropWhile p <:+ t ++ r := by
          simp only [List.cons_append, List.dropWhile_cons, ha, if_true]
          exact List.dropWhile_suffix _
        rw [h] at hsuf
        have := hsuf.length_le
        simp at this
      · simp [List.dropWhile_cons, ha]

/-- Trimming twice is trimming once. -/
theorem jsTrim_idempotent (s : String) : jsTrim (jsTrim s) = jsTrim s := by
  simp only [jsTrim]
  congr 1
  have hpre : ((s.data.dropWhile isJsWhitespace).reverse.dropWhile isJsWhitespace).reverse
      <+: s.data.dropWhile isJsWhitespace := by
    rw [← List.reverse_suffix, List.reverse_reverse]
    exact List.dropWhile_suffix _
  rw [dropWhile_self_of_initial isJsWhitespace _ _ hpre (List.dropWhile_idempotent _ _)]
  rw [List.reverse_reverse, List.dropWhile_idempotent]

/-- A text without a code fence is cleaned by trimming alone. -/
theorem cleanedContent_of_no_fence (raw : String) (h : jsIncludes raw "```" = false) :
    cleanedContent raw = jsTrim raw := by
  have h1 : includesFrom [backtick, backtick, backtick] raw.data = false := by
    rw [← fence_data]
    exact h
  have h2 := includesFrom_fenceJson raw.data h1
  unfold cleanedContent removeAll
  rw [fence_data, fenceJson_data, removeAllFrom_of_not_includes _ _ h2,
    removeAllFrom_of_not_includes _ _ h1]

/-- The cleaned text holds no code fence. -/
theorem cleanedContent_includes_fence (raw : String) :
    jsIncludes (cleanedContent raw) "```" = false := by
  rw [Bool.eq_false_iff]
  intro hi
  unfold jsIncludes at hi
  rw [includesFrom_iff] at hi
  unfold cleanedContent at hi
  have hin := List.IsInfix.trans hi (jsTrim_part _)
  unfold removeAll at hin
  rw [fence_data, ← includesFrom_iff, removeFence_no_fence] at hin
  exact Bool.false_ne_true hin

/-- C22: for every raw text the cleaned text holds no code fence, whether or not the
text was trimmed first as `generateAssessment` does; and a raw text without a code
fence is cleaned to the raw text without its leading and trailing white space. -/
theorem cleanedContent_no_fence (raw : String) :
    jsIncludes (cleanedContent raw) "```" = false ∧
    jsIncludes (cleanedContent (jsTrim raw)) "```" = false ∧
    (jsIncludes raw "```" = false →
      cleanedContent raw = jsTrim raw ∧ cleanedContent (jsTrim raw) = jsTrim raw) := by
  refine ⟨cleanedContent_includes_fence raw, cleanedContent_includes_fence _, ?_⟩
  intro h
  refine ⟨cleanedContent_of_no_fence raw h, ?_⟩
  have ht : jsIncludes (jsTrim raw) "```" = false := by
    rw [Bool.eq_false_iff] at h ⊢
    intro hi
    apply h
    unfold jsIncludes at hi ⊢
    rw [includesFrom_iff] at hi ⊢
    exact List.IsInfix.trans hi (jsTrim_part raw)
  rw [cleanedContent_of_no_fence _ ht, jsTrim_idempotent]

theorem cleanedContent_no_fence_witness :
    jsIncludes "  [1, 2]\n" "```" = false ∧
    cleanedContent "  [1, 2]\n" = "[1, 2]" ∧
    jsIncludes (cleanedContent "```json\n[1, 2]\n```") "```" = false :=
  ⟨by decide,
   ((cleanedContent_no_fence "  [1, 2]\n").2.2 (by decide)).1.trans (by decide),
   (cleanedContent_no_fence "```json\n[1, 2]\n```").1⟩


theorem removeAllFrom_skip (pattern : List Char) (skip : Nat) (text : List Char) :
    removeAllFrom pattern skip text = removeAllFrom pattern 0 (text.drop skip) := by
  induction text generalizing skip with
  | nil => cases skip <;> rfl
  | cons c cs ih =>
      cases skip with
      | zero => rfl
      | succ k =>
          rw [removeAllFrom, ih k]
          rfl

/-- A match at the head of the text is dropped whole. -/
theorem removeAllFrom_leading (p : Char) (ps rest : List Char) :
    removeAllFrom (p :: ps) 0 (p :: ps ++ rest) = removeAllFrom (p :: ps) 0 rest := by
  have hs : startsWith (p :: ps) (p :: (ps ++ rest)) = true := by
    rw [startsWith_iff]
    exact ⟨rest, rfl⟩
  rw [List.cons_append, removeAllFrom_match _ p _ hs, removeAllFrom_skip]
  simp

/-- Characters other than the first character of the pattern are kept. -/
theorem removeAllFrom_append_free (p : Char) (ps kept rest : List Char)
    (h : ∀ c ∈ kept, c ≠ p) :
    removeAllFrom (p :: ps) 0 (kept ++ rest) = kept ++ removeAllFrom (p :: ps) 0 rest := by
  induction kept with
  | nil => rfl
  | cons c cs ih =>
      have hc : c ≠ p := h c (List.mem_cons_self c cs)
      have hs : startsWith (p :: ps) (c :: (cs ++ rest)) = false := by
        simp [startsWith, Ne.symm hc]
      rw [List.cons_append, removeAllFrom_keep _ c _ hs,
        ih (fun d hd => h d (List.mem_cons_of_mem c hd))]
      rfl

theorem isJsWhitespace_newline : isJsWhitespace '\n' = true := by decide

theorem isJsWhitespace_backtick : isJsWhitespace backtick = false := by decide

/-- A line break before and after a text does not change its trimmed form. -/
theorem jsTrim_newlines (body : List Char) :
    jsTrim ⟨'\n' :: (body ++ ['\n'])⟩ = jsTrim ⟨body⟩ := by
  unfold jsTrim
  congr 1
  show ((('\n' :: (body ++ ['\n'])).dropWhile isJsWhitespace).reverse.dropWhile
      isJsWhitespace).reverse
    = ((body.dropWhile isJsWhitespace).reverse.dropWhile isJsWhitespace).reverse
  rw [List.dropWhile_cons, if_pos isJsWhitespace_newline, List.dropWhile_append]
  cases hd : body.dropWhile isJsWhitespace with
  | nil => simp [List.dropWhile_cons, isJsWhitespace_newline]
  | cons a t => simp [List.dropWhile_cons, isJsWhitespace_newline]

/-- A text that starts and ends with a backtick is its own trimmed form. -/
theorem jsTrim_between_backticks (middle : List Char) :
    jsTrim ⟨backtick :: (middle ++ [backtick])⟩ = ⟨backtick :: (middle ++ [backtick])⟩ := by
  unfold jsTrim
  congr 1
  show (((backtick :: (middle ++ [backtick])).dropWhile isJsWhitespace).reverse.dropWhile
      isJsWhitespace).reverse = backtick :: (middle ++ [backtick])
  rw [List.dropWhile_cons, if_neg (by rw [isJsWhitespace_backtick]; simp)]
  have hr : (backtick :: (middle ++ [backtick])).reverse
      = backtick :: (middle.reverse ++ [backtick]) := by simp
  rw [hr, List.dropWhile_cons, if_neg (by rw [isJsWhitespace_backtick]; simp), ← hr,
    List.reverse_reverse]

theorem newline_ne_backtick : '\n' ≠ backtick := by decide

theorem fencedJson_data (body : String) :
    ("```json\n" ++ body ++ "\n```")
      = ⟨backtick :: (([backtick, backtick, 'j', 's', 'o', 'n', '\n'] ++ body.data
          ++ ['\n', backtick, backtick]) ++ [backtick])⟩ := by
  apply String.ext
  simp [String.data_append, backtick]

theorem fenced_data (body : String) :
    ("```\n" ++ body ++ "\n```")
      = ⟨backtick :: (([backtick, backtick, '\n'] ++ body.data
          ++ ['\n', backtick, backtick]) ++ [backtick])⟩ := by
  apply String.ext
  simp [String.data_append, backtick]

/-- Cleaning a body without backticks between a `json` fence and a closing fence
gives the trimmed body. -/
theorem cleanedContent_fencedJson (body : List Char) (h : ∀ c ∈ body, c ≠ backtick) :
    cleanedContent ⟨backtick :: (([backtick, backtick, 'j', 's', 'o', 'n', '\n'] ++ body
        ++ ['\n', backtick, backtick]) ++ [backtick])⟩ = jsTrim ⟨body⟩ := by
  have hkept : ∀ c ∈ '\n' :: (body ++ ['\n']), c ≠ backtick := by
    intro c hc
    simp only [List.mem_cons, List.mem_append, List.mem_singleton, List.not_mem_nil,
      or_false] at hc
    rcases hc with hc | hc | hc
    · rw [hc]
      exact newline_ne_backtick
    · exact h c hc
    · rw [hc]
      exact newline_ne_backtick
  have hshape : backtick :: (([backtick, backtick, 'j', 's', 'o', 'n', '\n'] ++ body
        ++ ['\n', backtick, backtick]) ++ [backtick])
      = backtick :: [backtick, backtick, 'j', 's', 'o', 'n']
          ++ (('\n' :: (body ++ ['\n'])) ++ [backtick, backtick, backtick]) := by simp
  have hfence : removeAllFrom [backtick, backtick, backtick, 'j', 's', 'o', 'n'] 0
      [backtick, backtick, backtick] = [backtick, backtick, backtick] := by decide
  have hpass1 : removeAllFrom [backtick, backtick, backtick, 'j', 's', 'o', 'n'] 0
      (backtick :: [backtick, backtick, 'j', 's', 'o', 'n']
        ++ (('\n' :: (body ++ ['\n'])) ++ [backtick, backtick, backtick]))
      = ('\n' :: (body ++ ['\n'])) ++ (backtick :: [backtick, backtick] ++ []) := by
    rw [removeAllFrom_leading, removeAllFrom_append_free _ _ _ _ hkept, hfence]
    rfl
  have hpass2 : removeAllFrom [backtick, backtick, backtick] 0
      (('\n' :: (body ++ ['\n'])) ++ (backtick :: [backtick, backtick] ++ []))
      = '\n' :: (body ++ ['\n']) := by
    rw [removeAllFrom_append_free _ _ _ _ hkept, removeAllFrom_leading]
    simp [removeAllFrom]
  unfold cleanedContent removeAll
  rw [fence_data, fenceJson_data]
  show jsTrim ⟨removeAllFrom [backtick, backtick, backtick] 0
    (removeAllFrom [backtick, backtick, backtick, 'j', 's', 'o', 'n'] 0
      (backtick :: (([backtick, backtick, 'j', 's', 'o', 'n', '\n'] ++ body
        ++ ['\n', backtick, backtick]) ++ [backtick])))⟩ = jsTrim ⟨body⟩
  rw [hshape, hpass1, hpass2, jsTrim_newlines]

/-- Cleaning a body without backticks between two plain fences gives the trimmed
body. -/
theorem cleanedContent_fenced (body : List Char) (h : ∀ c ∈ body, c ≠ backtick) :
    cleanedContent ⟨backtick :: (([backtick, backtick, '\n'] ++ body
        ++ ['\n', backtick, backtick]) ++ [backtick])⟩ = jsTrim ⟨body⟩ := by
  have hkept : ∀ c ∈ '\n' :: (body ++ ['\n']), c ≠ backtick := by
    intro c hc
    simp only [List.mem_cons, List.mem_append, List.mem_singleton, List.not_mem_nil,
      or_false] at hc
    rcases hc with hc | hc | hc
    · rw [hc]
      exact newline_ne_backtick
    · exact h c hc
    · rw [hc]
      exact newline_ne_backtick
  have hshape : backtick :: (([backtick, backtick, '\n'] ++ body
        ++ ['\n', backtick, backtick]) ++ [backtick])
      = backtick :: backtick :: backtick
          :: (('\n' :: (body ++ ['\n'])) ++ [backtick, backtick, backtick]) := by simp
  have hfence : removeAllFrom [backtick, backtick, backtick, 'j', 's', 'o', 'n'] 0
      [backtick, backtick, backtick] = [backtick, backtick, backtick] := by decide
  have hk1 : startsWith [backtick, backtick, backtick, 'j', 's', 'o', 'n']
      (backtick :: backtick :: backtick
          :: (('\n' :: (body ++ ['\n'])) ++ [backtick, backtick, backtick])) = false := by
    simp [startsWith]
  have hk2 : startsWith [backtick, backtick, backtick, 'j', 's', 'o', 'n']
      (backtick :: backtick
          :: (('\n' :: (body ++ ['\n'])) ++ [backtick, backtick, backtick])) = false := by
    simp [startsWith, newline_ne_backtick.symm]
  have hk3 : startsWith [backtick, backtick, backtick, 'j', 's', 'o', 'n']
      (backtick :: (('\n' :: (body ++ ['\n'])) ++ [backtick, backtick, backtick])) = false := by
    simp [startsWith, newline_ne_backtick.symm]
  have hpass1 : removeAllFrom [backtick, backtick, backtick, 'j', 's', 'o', 'n'] 0
      (backtick :: backtick :: backtick
          :: (('\n' :: (body ++ ['\n'])) ++ [backtick, backtick, backtick]))
      = backtick :: [backtick, backtick]
          ++ (('\n' :: (body ++ ['\n'])) ++ (backtick :: [backtick, backtick] ++ [])) := by
    rw [removeAllFrom_keep _ _ _ hk1, removeAllFrom_keep _ _ _ hk2, removeAllFrom_keep _ _ _ hk3,
      removeAllFrom_append_free _ _ _ _ hkept, hfence]
    rfl
  have hpass2 : removeAllFrom [backtick, backtick, backtick] 0
      (backtick :: [backtick, backtick]
          ++ (('\n' :: (body ++ ['\n'])) ++ (backtick :: [backtick, backtick] ++ [])))
      = '\n' :: (body ++ ['\n']) := by
    rw [removeAllFrom_leading, removeAllFrom_append_free _ _ _ _ hkept, removeAllFrom_leading]
    simp [removeAllFrom]
  unfold cleanedContent removeAll
  rw [fence_data, fenceJson_data]
  show jsTrim ⟨removeAllFrom [backtick, backtick, backtick] 0
    (removeAllFrom [backtick, backtick, backtick, 'j', 's', 'o', 'n'] 0
      (backtick :: (([backtick, backtick, '\n'] ++ body
        ++ ['\n', backtick, backtick]) ++ [backtick])))⟩ = jsTrim ⟨body⟩
  rw [hshape, hpass1, hpass2, jsTrim_newlines]

/-- C23: for a body without a backtick, cleaning the body between a `json` fence line
and a closing fence line, or between two plain fence lines, gives the trimmed body,
also after the trim that `generateAssessment` applies first; so for every parser the
fenced document parses to what the unfenced one parses to. -/
theorem fenced_document_cleaned (b : String) (hb : ∀ c ∈ b.data, c ≠ backtick) :
    cleanedContent ("```json\n" ++ b ++ "\n```") = jsTrim b ∧
    cleanedContent ("```\n" ++ b ++ "\n```") = jsTrim b ∧
    cleanedContent (jsTrim ("```json\n" ++ b ++ "\n```")) = jsTrim b ∧
    cleanedContent (jsTrim ("```\n" ++ b ++ "\n```")) = jsTrim b ∧
    cleanedContent (jsTrim b) = jsTrim b ∧
    (∀ (α : Type) (parse : String → Option α),
      parse (cleanedContent (jsTrim ("```json\n" ++ b ++ "\n```")))
        = parse (cleanedContent (jsTrim b)) ∧
      parse (cleanedContent (jsTrim ("```\n" ++ b ++ "\n```")))
        = parse (cleanedContent (jsTrim b))) ∧
    (∀ auth parse create db topic,
      generateAssessment auth (serviceText ("```json\n" ++ b ++ "\n```")) parse create db topic
        = generateAssessment auth (serviceText b) parse create db topic ∧
      generateAssessment auth (serviceText ("```\n" ++ b ++ "\n```")) parse create db topic
        = generateAssessment auth (serviceText b) parse create db topic) := by
  have h1 : cleanedContent ("```json\n" ++ b ++ "\n```") = jsTrim b := by
    rw [fencedJson_data]
    exact cleanedContent_fencedJson b.data hb
  have h2 : cleanedContent ("```\n" ++ b ++ "\n```") = jsTrim b := by
    rw [fenced_data]
    exact cleanedContent_fenced b.data hb
  have h3 : cleanedContent (jsTrim ("```json\n" ++ b ++ "\n```")) = jsTrim b := by
    rw [fencedJson_data, jsTrim_between_backticks]
    exact cleanedContent_fencedJson b.data hb
  have h4 : cleanedContent (jsTrim ("```\n" ++ b ++ "\n```")) = jsTrim b := by
    rw [fenced_data, jsTrim_between_backticks]
    exact cleanedContent_fenced b.data hb
  have h5 : cleanedContent (jsTrim b) = jsTrim b := by
    have hnone : jsIncludes (jsTrim b) "```" = false := by
      unfold jsIncludes
      rw [fence_data]
      apply includesFrom_fence_of_no_backtick
      intro c hc
      exact hb c ((jsTrim_part b).subset hc)
    rw [cleanedContent_of_no_fence _ hnone, jsTrim_idempotent]
  refine ⟨h1, h2, h3, h4, h5, ?_, ?_⟩
  · intro α parse
    rw [h3, h4, h5]
    exact ⟨rfl, rfl⟩
  · intro auth parse create db topic
    have hloop : ∀ text, retryLoop (serviceText text) 0 0 []
        = { result := .ok (some text), calls := 1, waits := [] } :=
      fun text => retryLoop_success (serviceText text) 0 0 [] text (by omega) rfl
    simp only [generateAssessment, generateTry, hloop, parseAndPersist, h3, h4, h5, and_self]

theorem fenced_document_cleaned_witness :
    (∀ c ∈ " [1, 2] ".data, c ≠ backtick) ∧
    cleanedContent ("```json\n" ++ " [1, 2] " ++ "\n```") = "[1, 2]" :=
  ⟨by decide, (fenced_document_cleaned " [1, 2] " (by decide)).1.trans (by decide)⟩


/-! ## The dashboard's latest assessment -/

/-- Whatever the store holds, the element the dashboard takes from the list that
`getAssessments` returns was created no later than every assessment of that list. -/
theorem latestAssessment_created_first (auth : AuthResult) (db : Store)
    (assessments : List Assessment) (latest : Assessment)
    (hlist : getAssessments auth db = .ok assessments)
    (hlatest : latestAssessment assessments = some latest) :
    ∀ x ∈ assessments, latest.createdAt ≤ x.createdAt := by
  have hsorted : assessments.Sorted (fun a b : Assessment => b.createdAt ≤ a.createdAt) := by
    unfold getAssessments at hlist
    cases hauth : authenticated auth with
    | none =>
        rw [hauth] at hlist
        simp only [Except.ok.injEq] at hlist
        subst hlist
        exact List.sorted_nil
    | some user =>
        rw [hauth] at hlist
        simp only [Except.ok.injEq] at hlist
        subst hlist
        haveI : IsTotal Assessment (fun a b => b.createdAt ≤ a.createdAt) :=
          ⟨fun a b => Nat.le_total _ _⟩
        haveI : IsTrans Assessment (fun a b => b.createdAt ≤ a.createdAt) :=
          ⟨fun a b c h1 h2 => Nat.le_trans h2 h1⟩
        exact List.sorted_insertionSort _ _
  intro x hx
  unfold latestAssessment at hlatest
  split_ifs at hlatest with hpos
  obtain ⟨i, hi, rfl⟩ := List.getElem_of_mem hx
  rw [List.get?_eq_getElem?, List.getElem?_eq_some] at hlatest
  obtain ⟨hlast, rfl⟩ := hlatest
  rcases Nat.lt_or_ge i (assessments.length - 1) with hlt | hge
  · exact (List.pairwise_iff_getElem.mp hsorted) i (assessments.length - 1) hi hlast hlt
  · have : i = assessments.length - 1 := by omega
    subst this
    exact Nat.le_refl _

end SensAi
